import Mathlib

/-!
Verification of the MongoDB user-aggregate persistence layer
(`src/db/mongodb/mongodb.go` of the `user` service).

The Go code is shallowly embedded: the three collections become lists of
documents keyed by an internal identifier, every fallible storage write is
threaded through an explicit failure oracle carried by a `World` state, and
each exported Go function becomes a Lean function over that state.
-/

set_option autoImplicit false
set_option maxRecDepth 4000

/-! ## Identifier codec

mgo's `bson.ObjectId` is a raw 12-byte value; its external form is the
24-character lowercase hexadecimal string produced by `Hex()`.
`bson.IsObjectIdHex` accepts exactly the strings of length 24 whose
characters are hexadecimal digits, and `bson.ObjectIdHex` decodes such a
string back to the 12 bytes. -/

/-- An internal identifier: a sequence of bytes. mgo's zero `ObjectId` is the
empty byte string; a well-formed generated identifier has exactly 12 bytes
(`validOid`). -/
abbrev ObjectId := List (Fin 256)

/-- A well-formed internal identifier has exactly 12 bytes. -/
def validOid (x : ObjectId) : Prop := x.length = 12

instance (x : ObjectId) : Decidable (validOid x) := by
  unfold validOid; infer_instance

/-- Lowercase hex digit for a value below 16 (as produced by Go's
`hex.EncodeToString`). -/
def hexDigitChar (n : Nat) : Char :=
  if n < 10 then Char.ofNat (48 + n) else Char.ofNat (87 + n)

/-- Numeric value of one hex character, accepting `0-9`, `a-f` and `A-F`
(the character classes accepted by Go's `hex.DecodeString`). -/
def hexCharVal (c : Char) : Option (Fin 16) :=
  let n := c.toNat
  if h : 48 ≤ n ∧ n ≤ 57 then some ⟨n - 48, by omega⟩
  else if h : 97 ≤ n ∧ n ≤ 102 then some ⟨n - 87, by omega⟩
  else if h : 65 ≤ n ∧ n ≤ 70 then some ⟨n - 55, by omega⟩
  else none

/-- A character is a hex digit iff `hexCharVal` accepts it. -/
def isHexChar (c : Char) : Bool := (hexCharVal c).isSome

/-- One byte from its two hex nibbles. -/
def byteCombine (h l : Fin 16) : Fin 256 :=
  ⟨h.val * 16 + l.val, by have := h.isLt; have := l.isLt; omega⟩

/-- The two-character hex encoding of one byte. -/
def byteHex (b : Fin 256) : List Char :=
  [hexDigitChar (b.val / 16), hexDigitChar (b.val % 16)]

/-- `ObjectId.Hex()`: the hexadecimal string form of an identifier. -/
def oidHex (x : ObjectId) : String := ⟨x.flatMap byteHex⟩

/-- Decode a character list two characters at a time into bytes, failing on a
non-hex character or an odd length (Go's `hex.DecodeString`). -/
def decodePairs : List Char → Option (List (Fin 256))
  | [] => some []
  | [_] => none
  | c1 :: c2 :: rest =>
    (hexCharVal c1).bind fun h =>
    (hexCharVal c2).bind fun l =>
    (decodePairs rest).map fun bs => byteCombine h l :: bs

/-- `bson.IsObjectIdHex`: a string is a well-formed external identifier iff it
has length 24 and consists of hex characters. -/
def isObjectIdHex (s : String) : Bool :=
  decide (s.length = 24) && s.data.all isHexChar

/-- `bson.ObjectIdHex` as a total function: decode an external identifier
string, yielding `none` exactly on malformed input (where mgo would panic;
every call site in the source guards with `IsObjectIdHex`). -/
def objectIdHex (s : String) : Option ObjectId :=
  match decodePairs s.data with
  | some l => if l.length = 12 then some l else none
  | none => none

/-- `bson.ObjectIdHex` at a call site already guarded by `IsObjectIdHex`
(defaults to the zero identifier on the unreachable malformed case). -/
def objectIdHexD (s : String) : ObjectId := (objectIdHex s).getD []

/-! ## Domain values

Modelled from the spec: the domain-model package (`users`) is an external
collaborator ("plain User/Address/Card value records where the id field is an
external string, empty meaning not yet persisted", spec section 6). One
representative payload field is kept per record besides the id fields the
storage layer manipulates. -/

/-- Domain address value. -/
structure Address where
  street : String
  id : String
deriving DecidableEq, Repr

/-- Domain card value. -/
structure Card where
  longNum : String
  id : String
deriving DecidableEq, Repr

/-- Domain user value. -/
structure User where
  username : String
  addresses : List Address
  cards : List Card
  userID : String
deriving DecidableEq, Repr

/-- `users.New()`: the zero user value. Modelled from the spec: empty id
means "not yet persisted". -/
def newUser : User :=
  { username := "", addresses := [], cards := [], userID := "" }

/-! ## Storage documents (the Mongo wrapper types) -/

/-- `MongoUser`: the customers-collection document — the inline domain user
plus the store-generated `_id` and the `addresses`/`cards` reference-id
sets. -/
structure MongoUser where
  user : User
  id : ObjectId
  addressIDs : List ObjectId
  cardIDs : List ObjectId
deriving DecidableEq, Repr

/-- `MongoAddress`: an addresses-collection document. -/
structure MongoAddress where
  address : Address
  id : ObjectId
deriving DecidableEq, Repr

/-- `MongoCard`: a cards-collection document. -/
structure MongoCard where
  card : Card
  id : ObjectId
deriving DecidableEq, Repr

/-- Serialization of a user document. Modelled from the spec: the persisted
customers document carries the profile fields plus the two reference-id sets
only (spec section 6); the domain value's `Addresses`/`Cards`/`UserID` fields
are not stored (they are rebuilt on read), so they unmarshal as zero
values. -/
def bsonMarshalUser (mu : MongoUser) : MongoUser :=
  { mu with user := { mu.user with addresses := [], cards := [], userID := "" } }

/-- Serialization of an address document: the domain id string is not
persisted (the document is keyed by `_id`; the external id is rebuilt on
read). -/
def bsonMarshalAddress (ma : MongoAddress) : MongoAddress :=
  { ma with address := { ma.address with id := "" } }

/-- Serialization of a card document (see `bsonMarshalAddress`). -/
def bsonMarshalCard (mc : MongoCard) : MongoCard :=
  { mc with card := { mc.card with id := "" } }

/-- `AddUserIDs`: translate a loaded user document's internal ids to external
string form, appending id-only Address/Card stubs to the (empty-on-load)
domain lists. -/
def addUserIDs (mu : MongoUser) : MongoUser :=
  { mu with user := { mu.user with
      addresses := mu.user.addresses ++
        mu.addressIDs.map (fun i => { street := "", id := oidHex i }),
      cards := mu.user.cards ++
        mu.cardIDs.map (fun i => { longNum := "", id := oidHex i }),
      userID := oidHex mu.id } }

/-- The zero `MongoUser` built by `New()`. -/
def defaultMongoUser : MongoUser :=
  { user := newUser, id := [], addressIDs := [], cardIDs := [] }

/-! ## The store state and the failure oracle -/

/-- The three collections of the database. -/
structure DB where
  customers : List MongoUser
  addresses : List MongoAddress
  cards : List MongoCard
deriving DecidableEq, Repr

/-- The empty database. -/
def emptyDB : DB := { customers := [], addresses := [], cards := [] }

/-- Primitive storage-operation errors: a server/network failure of the n-th
write issued (covering duplicate-key violations and connectivity faults
alike), mgo's `ErrNotFound`, and `ErrInvalidHexID`. -/
inductive DbErr where
  | writeFail (n : Nat)
  | notFound
  | invalidHex
deriving DecidableEq, Repr

/-- Errors returned by `CreateUser`: either a primitive error, or the
partial-aggregate error `fmt.Errorf("%v %v", carderr, addrerr)` naming the
card-side and address-side causes. -/
inductive Err where
  | db (e : DbErr)
  | partialAgg (carderr addrerr : Option DbErr)
deriving DecidableEq, Repr

/-- The world a storage operation runs in: the database, a failure oracle
deciding whether the n-th write issued fails, the count of writes issued so
far, and the supply of fresh identifiers handed out by `bson.NewObjectId`. -/
structure World where
  db : DB
  failAt : Nat → Bool
  ops : Nat
  newIds : Nat → ObjectId
  gens : Nat

/-- `bson.NewObjectId()`: take the next identifier from the supply. -/
def newObjectId (w : World) : ObjectId × World :=
  (w.newIds w.gens, { w with gens := w.gens + 1 })

/-- Issue one write against the store: the oracle decides whether it fails
(leaving the database unchanged) or applies its effect. -/
def tryOp (eff : DB → DB) (w : World) : Option DbErr × World :=
  if w.failAt w.ops then
    (some (DbErr.writeFail w.ops), { w with ops := w.ops + 1 })
  else
    (none, { w with ops := w.ops + 1, db := eff w.db })

/-- Replace the first document matching `p`, as mgo's `Collection.Update`
modifies a single matching document. -/
def updateFirstCustomer (p : MongoUser → Bool) (f : MongoUser → MongoUser) :
    List MongoUser → List MongoUser
  | [] => []
  | mu :: rest => if p mu then f mu :: rest else mu :: updateFirstCustomer p f rest

/-- `Collection.Update(selector, change)` on customers: fails with
`ErrNotFound` when nothing matches. -/
def tryUpdateCustomers (p : MongoUser → Bool) (f : MongoUser → MongoUser) (w : World) :
    Option DbErr × World :=
  if w.failAt w.ops then
    (some (DbErr.writeFail w.ops), { w with ops := w.ops + 1 })
  else if w.db.customers.any p then
    (none, { w with ops := w.ops + 1, db := { w.db with customers := updateFirstCustomer p f w.db.customers } })
  else
    (some DbErr.notFound, { w with ops := w.ops + 1 })

/-- Does the named collection hold a document with this `_id`? -/
def collContains (entity : String) (oid : ObjectId) (db : DB) : Bool :=
  if entity = "customers" then db.customers.any (fun d => decide (d.id = oid))
  else if entity = "addresses" then db.addresses.any (fun d => decide (d.id = oid))
  else if entity = "cards" then db.cards.any (fun d => decide (d.id = oid))
  else false

/-- Remove the first document with this `_id` from the named collection (a
name other than the three collections denotes an empty collection). -/
def collRemoveFirst (entity : String) (oid : ObjectId) (db : DB) : DB :=
  if entity = "customers" then
    { db with customers := db.customers.eraseP (fun d => decide (d.id = oid)) }
  else if entity = "addresses" then
    { db with addresses := db.addresses.eraseP (fun d => decide (d.id = oid)) }
  else if entity = "cards" then
    { db with cards := db.cards.eraseP (fun d => decide (d.id = oid)) }
  else db

/-- `Collection.Remove({_id: oid})`: removes one matching document, failing
with `ErrNotFound` when there is none. -/
def tryRemove (entity : String) (oid : ObjectId) (w : World) : Option DbErr × World :=
  if w.failAt w.ops then
    (some (DbErr.writeFail w.ops), { w with ops := w.ops + 1 })
  else if collContains entity oid w.db then
    (none, { w with ops := w.ops + 1, db := collRemoveFirst entity oid w.db })
  else
    (some DbErr.notFound, { w with ops := w.ops + 1 })

/-- `UpsertId(id, doc)` on one collection's document list: replace the
matching document, or append the document when the id is new. -/
def upsertDoc {α : Type} (getId : α → ObjectId) (oid : ObjectId) (doc : α)
    (l : List α) : List α :=
  if l.any (fun d => decide (getId d = oid)) then
    l.map (fun d => if getId d = oid then doc else d)
  else l ++ [doc]

/-- Upsert a card document into the cards collection. -/
def insertCardDoc (mc : MongoCard) (db : DB) : DB :=
  { db with cards := upsertDoc MongoCard.id mc.id (bsonMarshalCard mc) db.cards }

/-- Upsert an address document into the addresses collection. -/
def insertAddressDoc (ma : MongoAddress) (db : DB) : DB :=
  { db with addresses := upsertDoc MongoAddress.id ma.id (bsonMarshalAddress ma) db.addresses }

/-- Upsert a user document into the customers collection. -/
def insertUserDoc (mu : MongoUser) (db : DB) : DB :=
  { db with customers := upsertDoc MongoUser.id mu.id (bsonMarshalUser mu) db.customers }

/-- `RemoveAll({_id: {$in: ids}})` on the addresses collection. -/
def removeAddressDocs (ids : List ObjectId) (db : DB) : DB :=
  { db with addresses := db.addresses.filter (fun d => ! ids.any (fun i => decide (i = d.id))) }

/-- `RemoveAll({_id: {$in: ids}})` on the cards collection. -/
def removeCardDocs (ids : List ObjectId) (db : DB) : DB :=
  { db with cards := db.cards.filter (fun d => ! ids.any (fun i => decide (i = d.id))) }

/-- `$addToSet {attr: oid}` on one user document: only the `addresses` and
`cards` fields exist as reference sets. -/
def addToSet (attr : String) (oid : ObjectId) (mu : MongoUser) : MongoUser :=
  if attr = "addresses" then
    { mu with addressIDs := if oid ∈ mu.addressIDs then mu.addressIDs else mu.addressIDs ++ [oid] }
  else if attr = "cards" then
    { mu with cardIDs := if oid ∈ mu.cardIDs then mu.cardIDs else mu.cardIDs ++ [oid] }
  else mu

/-- `$pull {attr: oid}` on one user document: removes every occurrence of
`oid` from the named reference set. -/
def pullAttr (attr : String) (oid : ObjectId) (mu : MongoUser) : MongoUser :=
  if attr = "addresses" then
    { mu with addressIDs := mu.addressIDs.filter (fun i => ! decide (i = oid)) }
  else if attr = "cards" then
    { mu with cardIDs := mu.cardIDs.filter (fun i => ! decide (i = oid)) }
  else mu

/-- `UpdateAll({}, {$pull: {attr: oid}})`: pull the id from the named
reference set of every customers document. -/
def pullAttrAll (attr : String) (oid : ObjectId) (db : DB) : DB :=
  { db with customers := db.customers.map (pullAttr attr oid) }

/-! ## The storage operations (`mongodb.go`) -/

/-- `createCards`: for each card in order, generate an id and upsert the card
document; on the first failure return the ids created so far together with
the error, leaving the remaining cards untouched. On success set each card's
external id string in the caller's slice. -/
def createCards : List Card → World → List ObjectId × List Card × Option DbErr × World
  | [], w => ([], [], none, w)
  | ca :: rest, w =>
    let id := w.newIds w.gens
    let w1 : World := { w with gens := w.gens + 1 }
    let mc : MongoCard := { card := ca, id := id }
    match tryOp (insertCardDoc mc) w1 with
    | (some e, w2) => ([], ca :: rest, some e, w2)
    | (none, w2) =>
      match createCards rest w2 with
      | (ids, rest', e', w3) => (id :: ids, { ca with id := oidHex id } :: rest', e', w3)

/-- `createAddresses`: the address analogue of `createCards`. -/
def createAddresses : List Address → World → List ObjectId × List Address × Option DbErr × World
  | [], w => ([], [], none, w)
  | a :: rest, w =>
    let id := w.newIds w.gens
    let w1 : World := { w with gens := w.gens + 1 }
    let ma : MongoAddress := { address := a, id := id }
    match tryOp (insertAddressDoc ma) w1 with
    | (some e, w2) => ([], a :: rest, some e, w2)
    | (none, w2) =>
      match createAddresses rest w2 with
      | (ids, rest', e', w3) => (id :: ids, { a with id := oidHex id } :: rest', e', w3)

/-- `cleanAttributes`: bulk-remove the address documents then the card
documents referenced by the user document; only the card-side error is
reported (the address-side error is shadowed, exactly as in the source). -/
def cleanAttributes (mu : MongoUser) (w : World) : Option DbErr × World :=
  let r1 := tryOp (removeAddressDocs mu.addressIDs) w
  let r2 := tryOp (removeCardDocs mu.cardIDs) r1.2
  r2

/-- `CreateUser`: generate the user id, create the nested cards then the
nested addresses (collecting their errors), upsert the user record carrying
the collected reference ids. On user-upsert failure run the compensating
`cleanAttributes` (ignoring its error) and return the upsert failure; on
upsert success with a nested failure return the partial-aggregate error; on
full success write the persisted record back to the caller's value. The
returned `User` is the caller's value after the call (the nested-creation id
assignments mutate the caller's slices in place). -/
def createUser (u : User) (w : World) : User × Option Err × World :=
  let id := w.newIds w.gens
  let w1 : World := { w with gens := w.gens + 1 }
  match createCards u.cards w1 with
  | (cardIDs, cards', carderr, w2) =>
    match createAddresses u.addresses w2 with
    | (addressIDs, addrs', addrerr, w3) =>
      let uMut : User := { u with cards := cards', addresses := addrs' }
      let mu : MongoUser := { user := uMut, id := id, addressIDs := addressIDs, cardIDs := cardIDs }
      match tryOp (insertUserDoc mu) w3 with
      | (some e, w4) => (uMut, some (Err.db e), (cleanAttributes mu w4).2)
      | (none, w4) =>
        if carderr.isSome || addrerr.isSome then
          (uMut, some (Err.partialAgg carderr addrerr), w4)
        else
          ({ uMut with userID := oidHex id }, none, w4)

/-- `GetUser`: reject a malformed id, then load the user document by id and
translate its identifiers; read errors surface as `ErrNotFound`. -/
def getUser (id : String) (db : DB) : User × Option DbErr :=
  if isObjectIdHex id then
    match db.customers.find? (fun mu => decide (mu.id = objectIdHexD id)) with
    | some mu => ((addUserIDs mu).user, none)
    | none => ((addUserIDs defaultMongoUser).user, some DbErr.notFound)
  else
    (newUser, some DbErr.invalidHex)

/-- `appendAttributeId`: `$addToSet` the id into the named reference set of
the user document selected by the decoded user id. -/
def appendAttributeId (attr : String) (oid : ObjectId) (userid : String) (w : World) :
    Option DbErr × World :=
  tryUpdateCustomers (fun mu => decide (mu.id = objectIdHexD userid)) (addToSet attr oid) w

/-- `CreateCard`: reject a malformed non-empty user id; upsert the card
document under a fresh id; then, only for a non-empty user id, link it via
`appendAttributeId`; on success write the id back to the caller's value. -/
def createCard (ca : Card) (userid : String) (w : World) : Card × Option DbErr × World :=
  if (!(userid = "" : Bool) && !isObjectIdHex userid) = true then
    (ca, some DbErr.invalidHex, w)
  else
    let id := w.newIds w.gens
    let w1 : World := { w with gens := w.gens + 1 }
    let mc : MongoCard := { card := ca, id := id }
    match tryOp (insertCardDoc mc) w1 with
    | (some e, w2) => (ca, some e, w2)
    | (none, w2) =>
      if userid = "" then
        ({ ca with id := oidHex id }, none, w2)
      else
        match appendAttributeId "cards" id userid w2 with
        | (some e, w3) => (ca, some e, w3)
        | (none, w3) => ({ ca with id := oidHex id }, none, w3)

/-- `CreateAddress`: the address analogue of `CreateCard`. -/
def createAddress (a : Address) (userid : String) (w : World) : Address × Option DbErr × World :=
  if (!(userid = "" : Bool) && !isObjectIdHex userid) = true then
    (a, some DbErr.invalidHex, w)
  else
    let id := w.newIds w.gens
    let w1 : World := { w with gens := w.gens + 1 }
    let ma : MongoAddress := { address := a, id := id }
    match tryOp (insertAddressDoc ma) w1 with
    | (some e, w2) => (a, some e, w2)
    | (none, w2) =>
      if userid = "" then
        ({ a with id := oidHex id }, none, w2)
      else
        match appendAttributeId "addresses" id userid w2 with
        | (some e, w3) => (a, some e, w3)
        | (none, w3) => ({ a with id := oidHex id }, none, w3)

/-- The id-collection loop of `GetUserAttributes`: decode every reference
string, failing with `ErrInvalidHexID` on the first malformed one. -/
def collectIds : List String → Option (List ObjectId)
  | [] => some []
  | s :: rest =>
    if isObjectIdHex s then (collectIds rest).map (fun t => objectIdHexD s :: t)
    else none

/-- `Find({_id: {$in: ids}}).All` on the addresses collection. -/
def findAddressDocs (ids : List ObjectId) (db : DB) : List MongoAddress :=
  db.addresses.filter (fun d => ids.any (fun i => decide (i = d.id)))

/-- `Find({_id: {$in: ids}}).All` on the cards collection. -/
def findCardDocs (ids : List ObjectId) (db : DB) : List MongoCard :=
  db.cards.filter (fun d => ids.any (fun i => decide (i = d.id)))

/-- `GetUserAttributes`: decode the address references (failing without
touching the user), hydrate and replace the `addresses` field, then decode
the card references (failing with the addresses already replaced), hydrate
and replace the `cards` field. Returns the caller's user value after the
call. -/
def getUserAttributes (u : User) (db : DB) : User × Option DbErr :=
  match collectIds (u.addresses.map (fun a => a.id)) with
  | none => (u, some DbErr.invalidHex)
  | some aids =>
    let na := (findAddressDocs aids db).map (fun d => { d.address with id := oidHex d.id })
    let u1 := { u with addresses := na }
    match collectIds (u1.cards.map (fun c => c.id)) with
    | none => (u1, some DbErr.invalidHex)
    | some cids =>
      let nc := (findCardDocs cids db).map (fun d => { d.card with id := oidHex d.id })
      ({ u1 with cards := nc }, none)

/-- `Delete`: reject a malformed id. For the `customers` collection load the
user (propagating its error), bulk-remove the referenced address and card
documents (both errors ignored), then remove the user document. For any
other collection pull the id from that reference set of every user document
(error ignored), then remove the entity document. -/
def deleteEntity (entity : String) (id : String) (w : World) : Option DbErr × World :=
  if !isObjectIdHex id then
    (some DbErr.invalidHex, w)
  else if entity = "customers" then
    match getUser id w.db with
    | (_, some e) => (some e, w)
    | (u, none) =>
      let aids := u.addresses.map (fun a => objectIdHexD a.id)
      let cids := u.cards.map (fun c => objectIdHexD c.id)
      let r1 := tryOp (removeAddressDocs aids) w
      let r2 := tryOp (removeCardDocs cids) r1.2
      tryRemove entity (objectIdHexD id) r2.2
  else
    let r := tryOp (pullAttrAll entity (objectIdHexD id)) w
    tryRemove entity (objectIdHexD id) r.2

/-! ## Store well-formedness

Invariants every state reachable through this layer satisfies; the theorems
about reads after writes assume them of the starting state. -/

/-- A persisted customers document as this layer writes it: serialized domain
fields and well-formed reference ids. -/
def storedUserOk (mu : MongoUser) : Prop :=
  mu.user.addresses = [] ∧ mu.user.cards = [] ∧ validOid mu.id ∧
  (∀ a ∈ mu.addressIDs, validOid a) ∧ (∀ c ∈ mu.cardIDs, validOid c)

instance (mu : MongoUser) : Decidable (storedUserOk mu) := by
  unfold storedUserOk; infer_instance

/-- Database well-formedness: ids are keys (no duplicates within a
collection) and every customers document is as persisted by this layer. -/
def DBwf (db : DB) : Prop :=
  (db.customers.map MongoUser.id).Nodup ∧
  (db.addresses.map MongoAddress.id).Nodup ∧
  (db.cards.map MongoCard.id).Nodup ∧
  ∀ mu ∈ db.customers, storedUserOk mu

instance (db : DB) : Decidable (DBwf db) := by
  unfold DBwf; infer_instance

/-! ## Concrete fixtures for the closed instance theorems -/

/-- A fresh-identifier supply that is injective by construction (the length
of the byte string encodes the index). -/
def natSupply (k : Nat) : ObjectId := List.replicate k 0

/-- A world over an empty store whose n-th write fails iff `bad n = true`. -/
def mkWorld (bad : Nat → Bool) : World :=
  { db := emptyDB, failAt := bad, ops := 0, newIds := natSupply, gens := 0 }

/-- A valid 12-byte identifier ending in byte `n`. -/
def fixOid (n : Fin 256) : ObjectId := List.replicate 11 0 ++ [n]

/-- The concrete two-card user of the CreateUser scenarios. -/
def twoCardUser : User :=
  { username := "alice", addresses := [],
    cards := [{ longNum := "4111", id := "" }, { longNum := "4222", id := "" }],
    userID := "" }

/-- A concrete user with one nested card and one nested address. -/
def mixedUser : User :=
  { username := "bob", addresses := [{ street := "baker", id := "" }],
    cards := [{ longNum := "4333", id := "" }], userID := "" }

/-- A user referencing one address document that does not exist. -/
def orphanRefUser : User :=
  { username := "carol", addresses := [{ street := "s", id := oidHex (fixOid 7) }],
    cards := [], userID := "" }

/-- A user whose only card reference is malformed. -/
def badCardRefUser : User :=
  { username := "dave", addresses := [], cards := [{ longNum := "4", id := "zz" }],
    userID := "" }

/-- A user whose only address reference is malformed. -/
def badAddrRefUser : User :=
  { username := "erin", addresses := [{ street := "s", id := "zz" }], cards := [],
    userID := "" }

/-- A user with no nested items. -/
def noNestUser : User := { username := "frank", addresses := [], cards := [], userID := "" }

/-- A stored user document referencing one address and one card. -/
def storedMu : MongoUser :=
  { user := { username := "gina", addresses := [], cards := [], userID := "" },
    id := fixOid 1, addressIDs := [fixOid 2], cardIDs := [fixOid 3] }

/-- A populated store: one user owning one address and one card document. -/
def popDB : DB :=
  { customers := [storedMu],
    addresses := [{ address := { street := "", id := "" }, id := fixOid 2 }],
    cards := [{ card := { longNum := "", id := "" }, id := fixOid 3 }] }

/-- A world over the populated store with no write failures. -/
def popWorld : World :=
  { db := popDB, failAt := fun _ => false, ops := 0, newIds := natSupply, gens := 0 }

/-- The identifiers a run of nested creations draws from the supply: `n`
fresh ids starting at generation counter `g`. -/
def genIdsFrom (f : Nat → ObjectId) (g : Nat) : Nat → List ObjectId
  | 0 => []
  | n + 1 => f g :: genIdsFrom f (g + 1) n

/-! ### Codec lemmas -/

theorem hexCharVal_hexDigitChar : ∀ n : Fin 16, hexCharVal (hexDigitChar n.val) = some n := by
  decide

theorem isHexChar_hexDigitChar (n : Fin 16) : isHexChar (hexDigitChar n.val) = true := by
  rw [isHexChar, hexCharVal_hexDigitChar n]
  rfl

theorem byteCombine_div_mod (b : Fin 256) :
    byteCombine ⟨b.val / 16, by have := b.isLt; omega⟩ ⟨b.val % 16, by omega⟩ = b := by
  apply Fin.ext
  show b.val / 16 * 16 + b.val % 16 = b.val
  omega

theorem byteHex_all_hex (b : Fin 256) : ∀ c ∈ byteHex b, isHexChar c = true := by
  have hb := b.isLt
  intro c hc
  simp only [byteHex, List.mem_cons, List.not_mem_nil, or_false] at hc
  rcases hc with hc | hc
  · exact hc ▸ isHexChar_hexDigitChar ⟨b.val / 16, by omega⟩
  · exact hc ▸ isHexChar_hexDigitChar ⟨b.val % 16, by omega⟩

theorem byteHex_length (b : Fin 256) : (byteHex b).length = 2 := rfl

theorem decodePairs_byteHex_append (b : Fin 256) (cs : List Char) :
    decodePairs (byteHex b ++ cs) = (decodePairs cs).map (b :: ·) := by
  have hb := b.isLt
  have h1 := hexCharVal_hexDigitChar ⟨b.val / 16, by omega⟩
  have h2 := hexCharVal_hexDigitChar ⟨b.val % 16, by omega⟩
  show decodePairs (hexDigitChar (b.val / 16) :: hexDigitChar (b.val % 16) :: cs) = _
  unfold decodePairs
  rw [h1, h2]
  simp only [Option.some_bind]
  rw [byteCombine_div_mod b]
  congr 1
  rw [decodePairs.eq_def]

theorem decodePairs_flatMap_byteHex (x : ObjectId) :
    decodePairs (x.flatMap byteHex) = some x := by
  induction x with
  | nil => rfl
  | cons b t ih =>
    rw [List.flatMap_cons, decodePairs_byteHex_append, ih]
    rfl

theorem flatMap_byteHex_length (x : ObjectId) :
    (x.flatMap byteHex).length = 2 * x.length := by
  induction x with
  | nil => rfl
  | cons b t ih =>
    rw [List.flatMap_cons, List.length_append, ih, byteHex_length]
    simp
    omega

theorem oidHex_data (x : ObjectId) : (oidHex x).data = x.flatMap byteHex := rfl

theorem oidHex_length (x : ObjectId) : (oidHex x).length = 2 * x.length := by
  show (x.flatMap byteHex).length = 2 * x.length
  exact flatMap_byteHex_length x

/-- Encoding then decoding a valid identifier gives it back. -/
theorem objectIdHex_oidHex (x : ObjectId) (hx : validOid x) :
    objectIdHex (oidHex x) = some x := by
  have hx' : x.length = 12 := hx
  unfold objectIdHex
  rw [oidHex_data, decodePairs_flatMap_byteHex]
  simp [hx']

theorem objectIdHexD_oidHex (x : ObjectId) (hx : validOid x) :
    objectIdHexD (oidHex x) = x := by
  unfold objectIdHexD
  rw [objectIdHex_oidHex x hx]
  rfl

/-- The hex form of a valid identifier passes `IsObjectIdHex`. -/
theorem isObjectIdHex_oidHex (x : ObjectId) (hx : validOid x) :
    isObjectIdHex (oidHex x) = true := by
  have hx' : x.length = 12 := hx
  unfold isObjectIdHex
  apply Bool.and_eq_true_iff.mpr
  constructor
  · simp only [decide_eq_true_eq]
    rw [oidHex_length]
    omega
  · rw [List.all_eq_true]
    intro c hc
    rw [oidHex_data] at hc
    rw [List.mem_flatMap] at hc
    obtain ⟨b, _, hcb⟩ := hc
    exact byteHex_all_hex b c hcb

theorem decodePairs_length :
    ∀ (cs : List Char) (l : List (Fin 256)), decodePairs cs = some l →
      cs.length = 2 * l.length
  | [], l, h => by
      simp only [decodePairs, Option.some.injEq] at h
      subst h; rfl
  | [c], l, h => by simp [decodePairs] at h
  | c1 :: c2 :: rest, l, h => by
      unfold decodePairs at h
      rw [Option.bind_eq_some] at h
      obtain ⟨hh, h1, h⟩ := h
      rw [Option.bind_eq_some] at h
      obtain ⟨ll, h2, h⟩ := h
      rw [Option.map_eq_some'] at h
      obtain ⟨bs, h3, h4⟩ := h
      subst h4
      have := decodePairs_length rest bs h3
      simp only [List.length_cons]
      omega

theorem decodePairs_all_hex :
    ∀ (cs : List Char) (l : List (Fin 256)), decodePairs cs = some l →
      ∀ c ∈ cs, isHexChar c = true
  | [], _, _ => by intro c hc; simp at hc
  | [c], l, h => by simp [decodePairs] at h
  | c1 :: c2 :: rest, l, h => by
      unfold decodePairs at h
      rw [Option.bind_eq_some] at h
      obtain ⟨hh, h1, h⟩ := h
      rw [Option.bind_eq_some] at h
      obtain ⟨ll, h2, h⟩ := h
      rw [Option.map_eq_some'] at h
      obtain ⟨bs, h3, _⟩ := h
      intro c hc
      rcases List.mem_cons.mp hc with hc1 | hc1
      · subst hc1; simp [isHexChar, h1]
      · rcases List.mem_cons.mp hc1 with hc2 | hc2
        · subst hc2; simp [isHexChar, h2]
        · exact decodePairs_all_hex rest bs h3 c hc2

/-- A malformed external identifier string (wrong length or a non-hex
character) is rejected by the decoder and by `IsObjectIdHex`. -/
theorem objectIdHex_malformed (s : String)
    (h : ¬ (s.length = 24 ∧ ∀ c ∈ s.data, isHexChar c = true)) :
    objectIdHex s = none ∧ isObjectIdHex s = false := by
  constructor
  · unfold objectIdHex
    cases hd : decodePairs s.data with
    | none => rfl
    | some l =>
      have hlen : s.data.length = 2 * l.length := decodePairs_length _ _ hd
      have hhex : ∀ c ∈ s.data, isHexChar c = true := decodePairs_all_hex _ _ hd
      have h24 : ¬ s.length = 24 := fun hc => h ⟨hc, hhex⟩
      have hsl : s.length = s.data.length := rfl
      have hne : l.length ≠ 12 := by omega
      simp [hne]
  · unfold isObjectIdHex
    by_cases h24 : s.length = 24
    · have hnall : ¬ ∀ c ∈ s.data, isHexChar c = true := fun hc => h ⟨h24, hc⟩
      rw [Bool.and_eq_false_iff]
      right
      rw [← Bool.not_eq_true, List.all_eq_true]
      exact hnall
    · simp [h24]

/-! ## Helper lemmas about the primitive store operations -/

theorem mem_upsertDoc {α : Type} (getId : α → ObjectId) (oid : ObjectId) (doc : α)
    (l : List α) : doc ∈ upsertDoc getId oid doc l := by
  unfold upsertDoc
  by_cases hany : l.any (fun d => decide (getId d = oid)) = true
  · rw [if_pos hany]
    rw [List.any_eq_true] at hany
    obtain ⟨d, hd, hdid⟩ := hany
    simp only [decide_eq_true_eq] at hdid
    rw [List.mem_map]
    exact ⟨d, hd, if_pos hdid⟩
  · rw [if_neg hany]
    exact List.mem_append_right l (List.mem_singleton.mpr rfl)

theorem upsertDoc_mem_preserve {α : Type} (getId : α → ObjectId) (oid : ObjectId)
    (doc d : α) (l : List α) (hd : d ∈ l) (hne : getId d ≠ oid) :
    d ∈ upsertDoc getId oid doc l := by
  unfold upsertDoc
  by_cases hany : l.any (fun x => decide (getId x = oid)) = true
  · rw [if_pos hany]
    rw [List.mem_map]
    exact ⟨d, hd, if_neg hne⟩
  · rw [if_neg hany]
    exact List.mem_append_left _ hd

theorem removeAddressDocs_not_mem (ids : List ObjectId) (db : DB) :
    ∀ d ∈ (removeAddressDocs ids db).addresses, d.id ∉ ids := by
  intro d hd
  unfold removeAddressDocs at hd
  simp only [List.mem_filter] at hd
  obtain ⟨_, hkeep⟩ := hd
  intro hmem
  rw [Bool.not_eq_eq_eq_not, Bool.not_true, List.any_eq_false] at hkeep
  have := hkeep d.id hmem
  simp at this

theorem removeCardDocs_not_mem (ids : List ObjectId) (db : DB) :
    ∀ d ∈ (removeCardDocs ids db).cards, d.id ∉ ids := by
  intro d hd
  unfold removeCardDocs at hd
  simp only [List.mem_filter] at hd
  obtain ⟨_, hkeep⟩ := hd
  intro hmem
  rw [Bool.not_eq_eq_eq_not, Bool.not_true, List.any_eq_false] at hkeep
  have := hkeep d.id hmem
  simp at this

/-- After erasing the (unique, by `Nodup`) document with a given key, no
document with that key remains. -/
theorem eraseP_key_gone {α : Type} (f : α → ObjectId) (k : ObjectId) :
    ∀ l : List α, (l.map f).Nodup →
      ∀ d ∈ l.eraseP (fun x => decide (f x = k)), f d ≠ k
  | [], _, d, hd => by simp at hd
  | a :: t, hnd, d, hd => by
      rw [List.map_cons, List.nodup_cons] at hnd
      obtain ⟨hna, hnt⟩ := hnd
      by_cases ha : f a = k
      · rw [List.eraseP_cons_of_pos (by simp [ha])] at hd
        intro hdk
        apply hna
        rw [List.mem_map]
        exact ⟨d, hd, by rw [hdk, ha]⟩
      · rw [List.eraseP_cons_of_neg (by simp [ha])] at hd
        rcases List.mem_cons.mp hd with h | h
        · exact h ▸ ha
        · exact eraseP_key_gone f k t hnt d h

theorem find?_eq_none_of_not_key {α : Type} (f : α → ObjectId) (k : ObjectId)
    (l : List α) (h : ∀ d ∈ l, f d ≠ k) :
    l.find? (fun x => decide (f x = k)) = none := by
  rw [List.find?_eq_none]
  intro d hd
  simp [h d hd]

/-! ## Helper lemmas about `collectIds` and hydration -/

theorem collectIds_ok :
    ∀ ss : List String, (∀ s ∈ ss, isObjectIdHex s = true) →
      collectIds ss = some (ss.map objectIdHexD)
  | [], _ => rfl
  | s :: rest, h => by
      unfold collectIds
      rw [if_pos (h s (List.mem_cons_self s rest))]
      rw [collectIds_ok rest (fun x hx => h x (List.mem_cons_of_mem s hx))]
      rfl

theorem collectIds_none :
    ∀ ss : List String, ∀ s ∈ ss, isObjectIdHex s = false → collectIds ss = none
  | [], s, hs, _ => by simp at hs
  | a :: rest, s, hs, hbad => by
      unfold collectIds
      rcases List.mem_cons.mp hs with h | h
      · subst h
        rw [if_neg (by simp [hbad])]
      · by_cases ha : isObjectIdHex a = true
        · rw [if_pos ha, collectIds_none rest s h hbad]
          rfl
        · rw [if_neg ha]

theorem mem_findAddressDocs (ids : List ObjectId) (db : DB) (d : MongoAddress) :
    d ∈ findAddressDocs ids db ↔ d ∈ db.addresses ∧ d.id ∈ ids := by
  unfold findAddressDocs
  rw [List.mem_filter]
  constructor
  · rintro ⟨h1, h2⟩
    rw [List.any_eq_true] at h2
    obtain ⟨i, hi, hid⟩ := h2
    simp only [decide_eq_true_eq] at hid
    exact ⟨h1, hid ▸ hi⟩
  · rintro ⟨h1, h2⟩
    refine ⟨h1, ?_⟩
    rw [List.any_eq_true]
    exact ⟨d.id, h2, by simp⟩

theorem mem_findCardDocs (ids : List ObjectId) (db : DB) (d : MongoCard) :
    d ∈ findCardDocs ids db ↔ d ∈ db.cards ∧ d.id ∈ ids := by
  unfold findCardDocs
  rw [List.mem_filter]
  constructor
  · rintro ⟨h1, h2⟩
    rw [List.any_eq_true] at h2
    obtain ⟨i, hi, hid⟩ := h2
    simp only [decide_eq_true_eq] at hid
    exact ⟨h1, hid ▸ hi⟩
  · rintro ⟨h1, h2⟩
    refine ⟨h1, ?_⟩
    rw [List.any_eq_true]
    exact ⟨d.id, h2, by simp⟩

theorem pullAttr_id (attr : String) (oid : ObjectId) (mu : MongoUser) :
    (pullAttr attr oid mu).id = mu.id := by
  unfold pullAttr
  split <;> [rfl; split <;> rfl]

theorem pullAttr_user (attr : String) (oid : ObjectId) (mu : MongoUser) :
    (pullAttr attr oid mu).user = mu.user := by
  unfold pullAttr
  split <;> [rfl; split <;> rfl]

theorem tryOp_some (eff : DB → DB) (w : World) (e : DbErr) (w' : World)
    (h : tryOp eff w = (some e, w')) :
    w' = { w with ops := w.ops + 1 } ∧ e = DbErr.writeFail w.ops ∧ w.failAt w.ops = true := by
  unfold tryOp at h
  by_cases hf : w.failAt w.ops = true
  · rw [if_pos hf] at h
    simp only [Prod.mk.injEq, Option.some.injEq] at h
    exact ⟨h.2.symm, h.1.symm, hf⟩
  · rw [if_neg hf] at h
    simp at h

theorem tryOp_none (eff : DB → DB) (w : World) (w' : World)
    (h : tryOp eff w = (none, w')) :
    w' = { w with ops := w.ops + 1, db := eff w.db } ∧ w.failAt w.ops = false := by
  unfold tryOp at h
  by_cases hf : w.failAt w.ops = true
  · rw [if_pos hf] at h
    simp at h
  · rw [if_neg hf] at h
    simp only [Prod.mk.injEq] at h
    exact ⟨h.2.symm, by rw [Bool.not_eq_true] at hf; exact hf⟩

theorem createCards_fields :
    ∀ (cs : List Card) (w : World) (ids : List ObjectId) (cs' : List Card)
      (e : Option DbErr) (w' : World), createCards cs w = (ids, cs', e, w') →
      w'.failAt = w.failAt ∧ w'.newIds = w.newIds ∧
      w'.db.customers = w.db.customers ∧ w'.db.addresses = w.db.addresses
  | [], w, ids, cs', e, w', h => by
      simp only [createCards, Prod.mk.injEq] at h
      obtain ⟨-, -, -, hw⟩ := h
      subst hw
      exact ⟨rfl, rfl, rfl, rfl⟩
  | ca :: rest, w, ids, cs', e, w', h => by
      simp only [createCards] at h
      split at h
      · rename_i e0 w2 htry
        simp only [Prod.mk.injEq] at h
        obtain ⟨-, -, -, hw⟩ := h
        subst hw
        obtain ⟨hw2, -, -⟩ := tryOp_some _ _ _ _ htry
        subst hw2
        exact ⟨rfl, rfl, rfl, rfl⟩
      · rename_i w2 htry
        rcases hrec : createCards rest w2 with ⟨ids0, rest', e0, w3⟩
        rw [hrec] at h
        simp only [Prod.mk.injEq] at h
        obtain ⟨-, -, -, hw⟩ := h
        subst hw
        obtain ⟨hw2, -⟩ := tryOp_none _ _ _ htry
        subst hw2
        have ih := createCards_fields rest _ ids0 rest' e0 w3 hrec
        simpa [insertCardDoc] using ih

theorem createCards_sets_ids :
    ∀ (cs : List Card) (w : World) (ids : List ObjectId) (cs' : List Card)
      (e : Option DbErr) (w' : World), createCards cs w = (ids, cs', e, w') →
      cs'.length = cs.length ∧ ids.length ≤ cs.length ∧
      ∀ j, ∀ hj : j < ids.length, ∃ hj' : j < cs'.length,
        (cs'.get ⟨j, hj'⟩).id = oidHex (ids.get ⟨j, hj⟩)
  | [], w, ids, cs', e, w', h => by
      simp only [createCards, Prod.mk.injEq] at h
      obtain ⟨hi, hc, -, -⟩ := h
      subst hi; subst hc
      exact ⟨rfl, Nat.le_refl 0, fun j hj => absurd hj (by simp)⟩
  | ca :: rest, w, ids, cs', e, w', h => by
      simp only [createCards] at h
      split at h
      · rename_i e0 w2 htry
        simp only [Prod.mk.injEq] at h
        obtain ⟨hi, hc, -, -⟩ := h
        subst hi; subst hc
        exact ⟨rfl, by simp, fun j hj => absurd hj (by simp)⟩
      · rename_i w2 htry
        rcases hrec : createCards rest w2 with ⟨ids0, rest', e0, w3⟩
        rw [hrec] at h
        simp only [Prod.mk.injEq] at h
        obtain ⟨hi, hc, -, -⟩ := h
        subst hi; subst hc
        obtain ⟨hlen, hle, hget⟩ := createCards_sets_ids rest w2 ids0 rest' e0 w3 hrec
        refine ⟨by simp [hlen], by simpa using Nat.succ_le_succ hle, ?_⟩
        intro j hj
        cases j with
        | zero => exact ⟨by simp, rfl⟩
        | succ j =>
          have hj0 : j < ids0.length := by simpa using hj
          obtain ⟨hj', he⟩ := hget j hj0
          refine ⟨by simpa using Nat.succ_lt_succ hj', ?_⟩
          simpa using he

theorem createCards_ok :
    ∀ (cs : List Card) (w : World),
      (∀ j, j < cs.length → w.failAt (w.ops + j) = false) →
      ∃ w', createCards cs w =
          (genIdsFrom w.newIds w.gens cs.length,
           List.zipWith (fun c i => { c with id := oidHex i }) cs (genIdsFrom w.newIds w.gens cs.length),
           none, w')
        ∧ w'.ops = w.ops + cs.length ∧ w'.gens = w.gens + cs.length
        ∧ w'.failAt = w.failAt ∧ w'.newIds = w.newIds
        ∧ w'.db.customers = w.db.customers ∧ w'.db.addresses = w.db.addresses
        ∧ ((∀ i j, w.newIds i = w.newIds j → i = j) →
            ∀ j, ∀ hj : j < cs.length,
              ({ card := { cs.get ⟨j, hj⟩ with id := "" }, id := w.newIds (w.gens + j) } : MongoCard)
                ∈ w'.db.cards)
        ∧ (∀ d, d ∈ w.db.cards → (∀ j, j < cs.length → d.id ≠ w.newIds (w.gens + j)) →
            d ∈ w'.db.cards)
  | [], w, hfail =>
      ⟨w, rfl, by simp, by simp, rfl, rfl, rfl, rfl,
        fun _ j hj => absurd hj (by simp), fun d hd _ => hd⟩
  | ca :: rest, w, hfail => by
      have h0 : w.failAt w.ops = false := by simpa using hfail 0 (by simp)
      set mc : MongoCard := { card := ca, id := w.newIds w.gens } with hmc
      set w2 : World := { w with gens := w.gens + 1, ops := w.ops + 1, db := insertCardDoc mc w.db } with hw2
      have htry : tryOp (insertCardDoc mc) { w with gens := w.gens + 1 } = (none, w2) := by
        rw [hw2]
        unfold tryOp
        rw [if_neg (by simp [h0])]
      have hw2fa : w2.failAt = w.failAt := by rw [hw2]
      have hw2ni : w2.newIds = w.newIds := by rw [hw2]
      have hw2ops : w2.ops = w.ops + 1 := by rw [hw2]
      have hw2gens : w2.gens = w.gens + 1 := by rw [hw2]
      have hw2db : w2.db = insertCardDoc mc w.db := by rw [hw2]
      have hfail2 : ∀ j, j < rest.length → w2.failAt (w2.ops + j) = false := by
        intro j hj
        rw [hw2fa, hw2ops]
        have harith : w.ops + 1 + j = w.ops + (j + 1) := by omega
        rw [harith]
        exact hfail (j + 1) (by simpa using Nat.succ_lt_succ hj)
      obtain ⟨w', heq, hops, hgens, hfa, hni, hcust, haddr, hmem, hpres⟩ :=
        createCards_ok rest w2 hfail2
      have hstep : createCards (ca :: rest) w
          = (w.newIds w.gens :: (createCards rest w2).1,
             { ca with id := oidHex (w.newIds w.gens) } :: (createCards rest w2).2.1,
             (createCards rest w2).2.2.1, (createCards rest w2).2.2.2) := by
        show (match tryOp (insertCardDoc mc) { w with gens := w.gens + 1 } with
          | (some e, w2x) => ([], ca :: rest, some e, w2x)
          | (none, w2x) =>
            match createCards rest w2x with
            | (ids, rest', e', w3) =>
              (w.newIds w.gens :: ids, { ca with id := oidHex (w.newIds w.gens) } :: rest', e', w3)) = _
        rw [htry]
      refine ⟨w', ?_, ?_, ?_, ?_, ?_, ?_, ?_, ?_, ?_⟩
      · rw [hstep, heq]
        simp only [List.length_cons, genIdsFrom, List.zipWith_cons_cons, hw2ni, hw2gens]
      · rw [hops, hw2ops, List.length_cons]
        omega
      · rw [hgens, hw2gens, List.length_cons]
        omega
      · rw [hfa, hw2fa]
      · rw [hni, hw2ni]
      · rw [hcust, hw2db]
        rfl
      · rw [haddr, hw2db]
        rfl
      · intro hinj j hj
        cases j with
        | zero =>
          have hd0 : bsonMarshalCard mc ∈ (insertCardDoc mc w.db).cards :=
            mem_upsertDoc _ _ _ _
          have hne : ∀ j, j < rest.length → (bsonMarshalCard mc).id ≠ w2.newIds (w2.gens + j) := by
            intro j hjr
            rw [hw2ni, hw2gens]
            show w.newIds w.gens ≠ w.newIds (w.gens + 1 + j)
            intro hcontra
            have := hinj _ _ hcontra
            omega
          have := hpres _ (hw2db ▸ hd0) hne
          simpa [bsonMarshalCard, hmc] using this
        | succ j =>
          have hjr : j < rest.length := by simpa using hj
          have hinj2 : ∀ i j, w2.newIds i = w2.newIds j → i = j := by
            rw [hw2ni]; exact hinj
          have h2 := hmem hinj2 j hjr
          rw [hw2ni, hw2gens] at h2
          have harith : w.gens + 1 + j = w.gens + (j + 1) := by omega
          rw [harith] at h2
          simpa using h2
      · intro d hd hne
        have hd2 : d ∈ (insertCardDoc mc w.db).cards := by
          unfold insertCardDoc
          apply upsertDoc_mem_preserve _ _ _ _ _ hd
          show d.id ≠ mc.id
          have := hne 0 (by simp)
          simpa [hmc] using this
        apply hpres _ (hw2db ▸ hd2)
        intro j hjr
        rw [hw2ni, hw2gens]
        have harith : w.gens + 1 + j = w.gens + (j + 1) := by omega
        rw [harith]
        exact hne (j + 1) (by simpa using Nat.succ_lt_succ hjr)

theorem createCards_fail :
    ∀ (cs : List Card) (w : World) (k : Nat), k < cs.length →
      (∀ j, j < k → w.failAt (w.ops + j) = false) →
      w.failAt (w.ops + k) = true →
      ∃ w', createCards cs w =
          (genIdsFrom w.newIds w.gens k,
           List.zipWith (fun c i => { c with id := oidHex i }) (cs.take k) (genIdsFrom w.newIds w.gens k)
             ++ cs.drop k,
           some (DbErr.writeFail (w.ops + k)), w')
        ∧ w'.ops = w.ops + k + 1 ∧ w'.gens = w.gens + k + 1
        ∧ w'.failAt = w.failAt ∧ w'.newIds = w.newIds
        ∧ w'.db.customers = w.db.customers ∧ w'.db.addresses = w.db.addresses
  | [], w, k, hk, _, _ => absurd hk (by simp)
  | ca :: rest, w, 0, hk, hsafe, hfk => by
      have h0 : w.failAt w.ops = true := by simpa using hfk
      set mc : MongoCard := { card := ca, id := w.newIds w.gens } with hmc
      set w2 : World := { w with gens := w.gens + 1, ops := w.ops + 1 } with hw2
      have htry : tryOp (insertCardDoc mc) { w with gens := w.gens + 1 }
          = (some (DbErr.writeFail w.ops), w2) := by
        rw [hw2]
        unfold tryOp
        rw [if_pos (by simp [h0])]
      have hstep : createCards (ca :: rest) w
          = ([], ca :: rest, some (DbErr.writeFail w.ops), w2) := by
        show (match tryOp (insertCardDoc mc) { w with gens := w.gens + 1 } with
          | (some e, w2x) => ([], ca :: rest, some e, w2x)
          | (none, w2x) =>
            match createCards rest w2x with
            | (ids, rest', e', w3) =>
              (w.newIds w.gens :: ids, { ca with id := oidHex (w.newIds w.gens) } :: rest', e', w3)) = _
        rw [htry]
      refine ⟨w2, ?_, by rw [hw2], by rw [hw2], by rw [hw2], by rw [hw2], by rw [hw2], by rw [hw2]⟩
      rw [hstep]
      simp [genIdsFrom]
  | ca :: rest, w, k + 1, hk, hsafe, hfk => by
      have h0 : w.failAt w.ops = false := by simpa using hsafe 0 (by omega)
      set mc : MongoCard := { card := ca, id := w.newIds w.gens } with hmc
      set w2 : World := { w with gens := w.gens + 1, ops := w.ops + 1, db := insertCardDoc mc w.db } with hw2
      have htry : tryOp (insertCardDoc mc) { w with gens := w.gens + 1 } = (none, w2) := by
        rw [hw2]
        unfold tryOp
        rw [if_neg (by simp [h0])]
      have hw2fa : w2.failAt = w.failAt := by rw [hw2]
      have hw2ni : w2.newIds = w.newIds := by rw [hw2]
      have hw2ops : w2.ops = w.ops + 1 := by rw [hw2]
      have hw2gens : w2.gens = w.gens + 1 := by rw [hw2]
      have hw2db : w2.db = insertCardDoc mc w.db := by rw [hw2]
      have hkr : k < rest.length := by simpa using hk
      have hsafe2 : ∀ j, j < k → w2.failAt (w2.ops + j) = false := by
        intro j hj
        rw [hw2fa, hw2ops]
        have harith : w.ops + 1 + j = w.ops + (j + 1) := by omega
        rw [harith]
        exact hsafe (j + 1) (by omega)
      have hfk2 : w2.failAt (w2.ops + k) = true := by
        rw [hw2fa, hw2ops]
        have harith : w.ops + 1 + k = w.ops + (k + 1) := by omega
        rw [harith]
        exact hfk
      obtain ⟨w', heq, hops, hgens, hfa, hni, hcust, haddr⟩ :=
        createCards_fail rest w2 k hkr hsafe2 hfk2
      have hstep : createCards (ca :: rest) w
          = (w.newIds w.gens :: (createCards rest w2).1,
             { ca with id := oidHex (w.newIds w.gens) } :: (createCards rest w2).2.1,
             (createCards rest w2).2.2.1, (createCards rest w2).2.2.2) := by
        show (match tryOp (insertCardDoc mc) { w with gens := w.gens + 1 } with
          | (some e, w2x) => ([], ca :: rest, some e, w2x)
          | (none, w2x) =>
            match createCards rest w2x with
            | (ids, rest', e', w3) =>
              (w.newIds w.gens :: ids, { ca with id := oidHex (w.newIds w.gens) } :: rest', e', w3)) = _
        rw [htry]
      refine ⟨w', ?_, ?_, ?_, ?_, ?_, ?_, ?_⟩
      · rw [hstep, heq]
        simp only [hw2ni, hw2gens, hw2ops]
        have harith : w.ops + 1 + k = w.ops + (k + 1) := by omega
        simp only [List.take_succ_cons, List.drop_succ_cons, List.zipWith_cons_cons, genIdsFrom,
          harith, List.cons_append]
      · rw [hops, hw2ops]
        omega
      · rw [hgens, hw2gens]
        omega
      · rw [hfa, hw2fa]
      · rw [hni, hw2ni]
      · rw [hcust, hw2db]
        rfl
      · rw [haddr, hw2db]
        rfl

theorem createAddresses_fields :
    ∀ (cs : List Address) (w : World) (ids : List ObjectId) (cs' : List Address)
      (e : Option DbErr) (w' : World), createAddresses cs w = (ids, cs', e, w') →
      w'.failAt = w.failAt ∧ w'.newIds = w.newIds ∧
      w'.db.customers = w.db.customers ∧ w'.db.cards = w.db.cards
  | [], w, ids, cs', e, w', h => by
      simp only [createAddresses, Prod.mk.injEq] at h
      obtain ⟨-, -, -, hw⟩ := h
      subst hw
      exact ⟨rfl, rfl, rfl, rfl⟩
  | ca :: rest, w, ids, cs', e, w', h => by
      simp only [createAddresses] at h
      split at h
      · rename_i e0 w2 htry
        simp only [Prod.mk.injEq] at h
        obtain ⟨-, -, -, hw⟩ := h
        subst hw
        obtain ⟨hw2, -, -⟩ := tryOp_some _ _ _ _ htry
        subst hw2
        exact ⟨rfl, rfl, rfl, rfl⟩
      · rename_i w2 htry
        rcases hrec : createAddresses rest w2 with ⟨ids0, rest', e0, w3⟩
        rw [hrec] at h
        simp only [Prod.mk.injEq] at h
        obtain ⟨-, -, -, hw⟩ := h
        subst hw
        obtain ⟨hw2, -⟩ := tryOp_none _ _ _ htry
        subst hw2
        have ih := createAddresses_fields rest _ ids0 rest' e0 w3 hrec
        simpa [insertAddressDoc] using ih

theorem createAddresses_sets_ids :
    ∀ (cs : List Address) (w : World) (ids : List ObjectId) (cs' : List Address)
      (e : Option DbErr) (w' : World), createAddresses cs w = (ids, cs', e, w') →
      cs'.length = cs.length ∧ ids.length ≤ cs.length ∧
      ∀ j, ∀ hj : j < ids.length, ∃ hj' : j < cs'.length,
        (cs'.get ⟨j, hj'⟩).id = oidHex (ids.get ⟨j, hj⟩)
  | [], w, ids, cs', e, w', h => by
      simp only [createAddresses, Prod.mk.injEq] at h
      obtain ⟨hi, hc, -, -⟩ := h
      subst hi; subst hc
      exact ⟨rfl, Nat.le_refl 0, fun j hj => absurd hj (by simp)⟩
  | ca :: rest, w, ids, cs', e, w', h => by
      simp only [createAddresses] at h
      split at h
      · rename_i e0 w2 htry
        simp only [Prod.mk.injEq] at h
        obtain ⟨hi, hc, -, -⟩ := h
        subst hi; subst hc
        exact ⟨rfl, by simp, fun j hj => absurd hj (by simp)⟩
      · rename_i w2 htry
        rcases hrec : createAddresses rest w2 with ⟨ids0, rest', e0, w3⟩
        rw [hrec] at h
        simp only [Prod.mk.injEq] at h
        obtain ⟨hi, hc, -, -⟩ := h
        subst hi; subst hc
        obtain ⟨hlen, hle, hget⟩ := createAddresses_sets_ids rest w2 ids0 rest' e0 w3 hrec
        refine ⟨by simp [hlen], by simpa using Nat.succ_le_succ hle, ?_⟩
        intro j hj
        cases j with
        | zero => exact ⟨by simp, rfl⟩
        | succ j =>
          have hj0 : j < ids0.length := by simpa using hj
          obtain ⟨hj', he⟩ := hget j hj0
          refine ⟨by simpa using Nat.succ_lt_succ hj', ?_⟩
          simpa using he

theorem createAddresses_ok :
    ∀ (cs : List Address) (w : World),
      (∀ j, j < cs.length → w.failAt (w.ops + j) = false) →
      ∃ w', createAddresses cs w =
          (genIdsFrom w.newIds w.gens cs.length,
           List.zipWith (fun c i => { c with id := oidHex i }) cs (genIdsFrom w.newIds w.gens cs.length),
           none, w')
        ∧ w'.ops = w.ops + cs.length ∧ w'.gens = w.gens + cs.length
        ∧ w'.failAt = w.failAt ∧ w'.newIds = w.newIds
        ∧ w'.db.customers = w.db.customers ∧ w'.db.cards = w.db.cards
        ∧ ((∀ i j, w.newIds i = w.newIds j → i = j) →
            ∀ j, ∀ hj : j < cs.length,
              ({ address := { cs.get ⟨j, hj⟩ with id := "" }, id := w.newIds (w.gens + j) } : MongoAddress)
                ∈ w'.db.addresses)
        ∧ (∀ d, d ∈ w.db.addresses → (∀ j, j < cs.length → d.id ≠ w.newIds (w.gens + j)) →
            d ∈ w'.db.addresses)
  | [], w, hfail =>
      ⟨w, rfl, by simp, by simp, rfl, rfl, rfl, rfl,
        fun _ j hj => absurd hj (by simp), fun d hd _ => hd⟩
  | ca :: rest, w, hfail => by
      have h0 : w.failAt w.ops = false := by simpa using hfail 0 (by simp)
      set mc : MongoAddress := { address := ca, id := w.newIds w.gens } with hmc
      set w2 : World := { w with gens := w.gens + 1, ops := w.ops + 1, db := insertAddressDoc mc w.db } with hw2
      have htry : tryOp (insertAddressDoc mc) { w with gens := w.gens + 1 } = (none, w2) := by
        rw [hw2]
        unfold tryOp
        rw [if_neg (by simp [h0])]
      have hw2fa : w2.failAt = w.failAt := by rw [hw2]
      have hw2ni : w2.newIds = w.newIds := by rw [hw2]
      have hw2ops : w2.ops = w.ops + 1 := by rw [hw2]
      have hw2gens : w2.gens = w.gens + 1 := by rw [hw2]
      have hw2db : w2.db = insertAddressDoc mc w.db := by rw [hw2]
      have hfail2 : ∀ j, j < rest.length → w2.failAt (w2.ops + j) = false := by
        intro j hj
        rw [hw2fa, hw2ops]
        have harith : w.ops + 1 + j = w.ops + (j + 1) := by omega
        rw [harith]
        exact hfail (j + 1) (by simpa using Nat.succ_lt_succ hj)
      obtain ⟨w', heq, hops, hgens, hfa, hni, hcust, haddr, hmem, hpres⟩ :=
        createAddresses_ok rest w2 hfail2
      have hstep : createAddresses (ca :: rest) w
          = (w.newIds w.gens :: (createAddresses rest w2).1,
             { ca with id := oidHex (w.newIds w.gens) } :: (createAddresses rest w2).2.1,
             (createAddresses rest w2).2.2.1, (createAddresses rest w2).2.2.2) := by
        show (match tryOp (insertAddressDoc mc) { w with gens := w.gens + 1 } with
          | (some e, w2x) => ([], ca :: rest, some e, w2x)
          | (none, w2x) =>
            match createAddresses rest w2x with
            | (ids, rest', e', w3) =>
              (w.newIds w.gens :: ids, { ca with id := oidHex (w.newIds w.gens) } :: rest', e', w3)) = _
        rw [htry]
      refine ⟨w', ?_, ?_, ?_, ?_, ?_, ?_, ?_, ?_, ?_⟩
      · rw [hstep, heq]
        simp only [List.length_cons, genIdsFrom, List.zipWith_cons_cons, hw2ni, hw2gens]
      · rw [hops, hw2ops, List.length_cons]
        omega
      · rw [hgens, hw2gens, List.length_cons]
        omega
      · rw [hfa, hw2fa]
      · rw [hni, hw2ni]
      · rw [hcust, hw2db]
        rfl
      · rw [haddr, hw2db]
        rfl
      · intro hinj j hj
        cases j with
        | zero =>
          have hd0 : bsonMarshalAddress mc ∈ (insertAddressDoc mc w.db).addresses :=
            mem_upsertDoc _ _ _ _
          have hne : ∀ j, j < rest.length → (bsonMarshalAddress mc).id ≠ w2.newIds (w2.gens + j) := by
            intro j hjr
            rw [hw2ni, hw2gens]
            show w.newIds w.gens ≠ w.newIds (w.gens + 1 + j)
            intro hcontra
            have := hinj _ _ hcontra
            omega
          have := hpres _ (hw2db ▸ hd0) hne
          simpa [bsonMarshalAddress, hmc] using this
        | succ j =>
          have hjr : j < rest.length := by simpa using hj
          have hinj2 : ∀ i j, w2.newIds i = w2.newIds j → i = j := by
            rw [hw2ni]; exact hinj
          have h2 := hmem hinj2 j hjr
          rw [hw2ni, hw2gens] at h2
          have harith : w.gens + 1 + j = w.gens + (j + 1) := by omega
          rw [harith] at h2
          simpa using h2
      · intro d hd hne
        have hd2 : d ∈ (insertAddressDoc mc w.db).addresses := by
          unfold insertAddressDoc
          apply upsertDoc_mem_preserve _ _ _ _ _ hd
          show d.id ≠ mc.id
          have := hne 0 (by simp)
          simpa [hmc] using this
        apply hpres _ (hw2db ▸ hd2)
        intro j hjr
        rw [hw2ni, hw2gens]
        have harith : w.gens + 1 + j = w.gens + (j + 1) := by omega
        rw [harith]
        exact hne (j + 1) (by simpa using Nat.succ_lt_succ hjr)

theorem createAddresses_fail :
    ∀ (cs : List Address) (w : World) (k : Nat), k < cs.length →
      (∀ j, j < k → w.failAt (w.ops + j) = false) →
      w.failAt (w.ops + k) = true →
      ∃ w', createAddresses cs w =
          (genIdsFrom w.newIds w.gens k,
           List.zipWith (fun c i => { c with id := oidHex i }) (cs.take k) (genIdsFrom w.newIds w.gens k)
             ++ cs.drop k,
           some (DbErr.writeFail (w.ops + k)), w')
        ∧ w'.ops = w.ops + k + 1 ∧ w'.gens = w.gens + k + 1
        ∧ w'.failAt = w.failAt ∧ w'.newIds = w.newIds
        ∧ w'.db.customers = w.db.customers ∧ w'.db.cards = w.db.cards
  | [], w, k, hk, _, _ => absurd hk (by simp)
  | ca :: rest, w, 0, hk, hsafe, hfk => by
      have h0 : w.failAt w.ops = true := by simpa using hfk
      set mc : MongoAddress := { address := ca, id := w.newIds w.gens } with hmc
      set w2 : World := { w with gens := w.gens + 1, ops := w.ops + 1 } with hw2
      have htry : tryOp (insertAddressDoc mc) { w with gens := w.gens + 1 }
          = (some (DbErr.writeFail w.ops), w2) := by
        rw [hw2]
        unfold tryOp
        rw [if_pos (by simp [h0])]
      have hstep : createAddresses (ca :: rest) w
          = ([], ca :: rest, some (DbErr.writeFail w.ops), w2) := by
        show (match tryOp (insertAddressDoc mc) { w with gens := w.gens + 1 } with
          | (some e, w2x) => ([], ca :: rest, some e, w2x)
          | (none, w2x) =>
            match createAddresses rest w2x with
            | (ids, rest', e', w3) =>
              (w.newIds w.gens :: ids, { ca with id := oidHex (w.newIds w.gens) } :: rest', e', w3)) = _
        rw [htry]
      refine ⟨w2, ?_, by rw [hw2], by rw [hw2], by rw [hw2], by rw [hw2], by rw [hw2], by rw [hw2]⟩
      rw [hstep]
      simp [genIdsFrom]
  | ca :: rest, w, k + 1, hk, hsafe, hfk => by
      have h0 : w.failAt w.ops = false := by simpa using hsafe 0 (by omega)
      set mc : MongoAddress := { address := ca, id := w.newIds w.gens } with hmc
      set w2 : World := { w with gens := w.gens + 1, ops := w.ops + 1, db := insertAddressDoc mc w.db } with hw2
      have htry : tryOp (insertAddressDoc mc) { w with gens := w.gens + 1 } = (none, w2) := by
        rw [hw2]
        unfold tryOp
        rw [if_neg (by simp [h0])]
      have hw2fa : w2.failAt = w.failAt := by rw [hw2]
      have hw2ni : w2.newIds = w.newIds := by rw [hw2]
      have hw2ops : w2.ops = w.ops + 1 := by rw [hw2]
      have hw2gens : w2.gens = w.gens + 1 := by rw [hw2]
      have hw2db : w2.db = insertAddressDoc mc w.db := by rw [hw2]
      have hkr : k < rest.length := by simpa using hk
      have hsafe2 : ∀ j, j < k → w2.failAt (w2.ops + j) = false := by
        intro j hj
        rw [hw2fa, hw2ops]
        have harith : w.ops + 1 + j = w.ops + (j + 1) := by omega
        rw [harith]
        exact hsafe (j + 1) (by omega)
      have hfk2 : w2.failAt (w2.ops + k) = true := by
        rw [hw2fa, hw2ops]
        have harith : w.ops + 1 + k = w.ops + (k + 1) := by omega
        rw [harith]
        exact hfk
      obtain ⟨w', heq, hops, hgens, hfa, hni, hcust, haddr⟩ :=
        createAddresses_fail rest w2 k hkr hsafe2 hfk2
      have hstep : createAddresses (ca :: rest) w
          = (w.newIds w.gens :: (createAddresses rest w2).1,
             { ca with id := oidHex (w.newIds w.gens) } :: (createAddresses rest w2).2.1,
             (createAddresses rest w2).2.2.1, (createAddresses rest w2).2.2.2) := by
        show (match tryOp (insertAddressDoc mc) { w with gens := w.gens + 1 } with
          | (some e, w2x) => ([], ca :: rest, some e, w2x)
          | (none, w2x) =>
            match createAddresses rest w2x with
            | (ids, rest', e', w3) =>
              (w.newIds w.gens :: ids, { ca with id := oidHex (w.newIds w.gens) } :: rest', e', w3)) = _
        rw [htry]
      refine ⟨w', ?_, ?_, ?_, ?_, ?_, ?_, ?_⟩
      · rw [hstep, heq]
        simp only [hw2ni, hw2gens, hw2ops]
        have harith : w.ops + 1 + k = w.ops + (k + 1) := by omega
        simp only [List.take_succ_cons, List.drop_succ_cons, List.zipWith_cons_cons, genIdsFrom,
          harith, List.cons_append]
      · rw [hops, hw2ops]
        omega
      · rw [hgens, hw2gens]
        omega
      · rw [hfa, hw2fa]
      · rw [hni, hw2ni]
      · rw [hcust, hw2db]
        rfl
      · rw [haddr, hw2db]
        rfl

/-! ## The claims -/

/-- C7: for every valid internal identifier, decoding the hex string produced
by encoding it yields the identifier back; every malformed string (wrong
length or a non-hex character) is rejected by the decoder, by
`IsObjectIdHex`, and by the guarded decode step of the public operations
(shown on `GetUser`), which fail with `ErrInvalidHexID` and never produce an
identifier value. -/
theorem identifier_codec_roundtrip :
    (∀ x : ObjectId, validOid x → objectIdHex (oidHex x) = some x)
    ∧ (∀ s : String, ¬ (s.length = 24 ∧ ∀ c ∈ s.data, isHexChar c = true) →
        objectIdHex s = none ∧ isObjectIdHex s = false ∧
        ∀ db : DB, (getUser s db).2 = some DbErr.invalidHex) := by
  constructor
  · exact objectIdHex_oidHex
  · intro s hs
    obtain ⟨h1, h2⟩ := objectIdHex_malformed s hs
    refine ⟨h1, h2, fun db => ?_⟩
    unfold getUser
    rw [h2]
    simp

theorem identifier_codec_roundtrip_witness :
    objectIdHex (oidHex (List.replicate 12 (0 : Fin 256))) = some (List.replicate 12 0)
    ∧ objectIdHex "zz" = none
    ∧ (getUser "zz" emptyDB).2 = some DbErr.invalidHex :=
  ⟨identifier_codec_roundtrip.1 _ (by decide),
   (identifier_codec_roundtrip.2 "zz" (by decide)).1,
   (identifier_codec_roundtrip.2 "zz" (by decide)).2.2 emptyDB⟩

/-- C8: when every reference string of the user is well-formed,
`GetUserAttributes` returns no error — also when referenced ids have no
matching document — and every hydrated entry comes from a document actually
present in the corresponding collection (so orphaned references are silently
omitted). -/
theorem getUserAttributes_orphan_tolerant (u : User) (db : DB)
    (ha : ∀ a ∈ u.addresses, isObjectIdHex a.id = true)
    (hc : ∀ c ∈ u.cards, isObjectIdHex c.id = true) :
    (getUserAttributes u db).2 = none ∧
    (∀ x ∈ (getUserAttributes u db).1.addresses, ∃ d ∈ db.addresses,
        x = { d.address with id := oidHex d.id }) ∧
    (∀ x ∈ (getUserAttributes u db).1.cards, ∃ d ∈ db.cards,
        x = { d.card with id := oidHex d.id }) := by
  have ha' : ∀ s ∈ u.addresses.map (fun a => a.id), isObjectIdHex s = true := by
    intro s hs
    rw [List.mem_map] at hs
    obtain ⟨a, haa, rfl⟩ := hs
    exact ha a haa
  have hc' : ∀ s ∈ u.cards.map (fun c => c.id), isObjectIdHex s = true := by
    intro s hs
    rw [List.mem_map] at hs
    obtain ⟨c, hcc, rfl⟩ := hs
    exact hc c hcc
  have hgua : getUserAttributes u db
      = ({ u with
            addresses := (findAddressDocs ((u.addresses.map (fun a => a.id)).map objectIdHexD) db).map (fun d => { d.address with id := oidHex d.id }),
            cards := (findCardDocs ((u.cards.map (fun c => c.id)).map objectIdHexD) db).map (fun d => { d.card with id := oidHex d.id }) },
         none) := by
    unfold getUserAttributes
    rw [collectIds_ok _ ha']
    simp only [collectIds_ok _ hc']
  rw [hgua]
  refine ⟨rfl, ?_, ?_⟩
  · intro x hx
    simp only [List.mem_map] at hx
    obtain ⟨d, hd, rfl⟩ := hx
    exact ⟨d, ((mem_findAddressDocs _ _ _).mp hd).1, rfl⟩
  · intro x hx
    simp only [List.mem_map] at hx
    obtain ⟨d, hd, rfl⟩ := hx
    exact ⟨d, ((mem_findCardDocs _ _ _).mp hd).1, rfl⟩

theorem getUserAttributes_orphan_tolerant_witness :
    (getUserAttributes orphanRefUser emptyDB).2 = none
    ∧ (getUserAttributes orphanRefUser emptyDB).1.addresses = [] := by
  constructor
  · exact (getUserAttributes_orphan_tolerant orphanRefUser emptyDB (by decide) (by decide)).1
  · decide

/-- C9: `GetUserAttributes` is not atomic on its invalid-identifier path:
with well-formed address references and a malformed card reference it
returns `ErrInvalidHexID` with the user's `addresses` field already replaced
by the hydrated documents (all other fields unchanged), whereas a malformed
address reference returns the error with the user completely unmodified. -/
theorem getUserAttributes_nonatomic (u : User) (db : DB) :
    ((∀ a ∈ u.addresses, isObjectIdHex a.id = true) →
      (∃ c ∈ u.cards, isObjectIdHex c.id = false) →
      getUserAttributes u db =
        ({ u with addresses := (findAddressDocs ((u.addresses.map (fun a => a.id)).map objectIdHexD) db).map (fun d => { d.address with id := oidHex d.id }) },
         some DbErr.invalidHex))
    ∧ ((∃ a ∈ u.addresses, isObjectIdHex a.id = false) →
        getUserAttributes u db = (u, some DbErr.invalidHex)) := by
  constructor
  · intro ha hbad
    have ha' : ∀ s ∈ u.addresses.map (fun a => a.id), isObjectIdHex s = true := by
      intro s hs
      rw [List.mem_map] at hs
      obtain ⟨a, haa, rfl⟩ := hs
      exact ha a haa
    obtain ⟨c, hcc, hcbad⟩ := hbad
    have hnone : collectIds (u.cards.map (fun c => c.id)) = none :=
      collectIds_none _ c.id (List.mem_map_of_mem _ hcc) hcbad
    unfold getUserAttributes
    rw [collectIds_ok _ ha']
    simp only [hnone]
  · intro hbad
    obtain ⟨a, haa, habad⟩ := hbad
    have hnone : collectIds (u.addresses.map (fun a => a.id)) = none :=
      collectIds_none _ a.id (List.mem_map_of_mem _ haa) habad
    unfold getUserAttributes
    rw [hnone]

theorem getUserAttributes_nonatomic_witness :
    getUserAttributes badCardRefUser emptyDB = (badCardRefUser, some DbErr.invalidHex)
    ∧ getUserAttributes badAddrRefUser emptyDB = (badAddrRefUser, some DbErr.invalidHex) := by
  constructor
  · have h := (getUserAttributes_nonatomic badCardRefUser emptyDB).1 (by decide)
      ⟨{ longNum := "4", id := "zz" }, by decide, by decide⟩
    simpa using h
  · exact (getUserAttributes_nonatomic badAddrRefUser emptyDB).2
      ⟨{ street := "s", id := "zz" }, by decide, by decide⟩

theorem tryOp_ops (eff : DB → DB) (w : World) : (tryOp eff w).2.ops = w.ops + 1 := by
  unfold tryOp
  split <;> rfl

theorem tryOp_failAt (eff : DB → DB) (w : World) : (tryOp eff w).2.failAt = w.failAt := by
  unfold tryOp
  split <;> rfl

theorem cleanAttributes_ops (mu : MongoUser) (w : World) :
    (cleanAttributes mu w).2.ops = w.ops + 2 := by
  unfold cleanAttributes
  rw [tryOp_ops, tryOp_ops]

/-- Reduction of `createUser` once the results of the two nested-creation
phases are known. -/
theorem createUser_unfold (u : User) (w : World)
    (cids : List ObjectId) (cs' : List Card) (ce : Option DbErr) (w2 : World)
    (aids : List ObjectId) (as' : List Address) (ae : Option DbErr) (w3 : World)
    (mu : MongoUser)
    (hc : createCards u.cards { w with gens := w.gens + 1 } = (cids, cs', ce, w2))
    (ha : createAddresses u.addresses w2 = (aids, as', ae, w3))
    (hmu : mu = { user := { u with cards := cs', addresses := as' }, id := w.newIds w.gens, addressIDs := aids, cardIDs := cids }) :
    createUser u w =
      (match tryOp (insertUserDoc mu) w3 with
       | (some e, w4) => ({ u with cards := cs', addresses := as' }, some (Err.db e), (cleanAttributes mu w4).2)
       | (none, w4) =>
         if ce.isSome || ae.isSome then
           ({ u with cards := cs', addresses := as' }, some (Err.partialAgg ce ae), w4)
         else
           ({ { u with cards := cs', addresses := as' } with userID := oidHex (w.newIds w.gens) }, none, w4)) := by
  subst hmu
  simp only [createUser]
  rw [hc, ha]

/-- C2: whenever the user-record upsert inside `CreateUser` fails, the
returned error is exactly that upsert failure — whatever the cleanup oracle
does — and the compensating `cleanAttributes` is attempted (two further
writes are issued); when those cleanup writes succeed, no document created
for the nested addresses or cards remains in the store. -/
theorem createUser_compensation (u : User) (w : World)
    (cids : List ObjectId) (cs' : List Card) (ce : Option DbErr) (w2 : World)
    (aids : List ObjectId) (as' : List Address) (ae : Option DbErr) (w3 : World)
    (hc : createCards u.cards { w with gens := w.gens + 1 } = (cids, cs', ce, w2))
    (ha : createAddresses u.addresses w2 = (aids, as', ae, w3))
    (hfail : w3.failAt w3.ops = true) :
    (createUser u w).2.1 = some (Err.db (DbErr.writeFail w3.ops))
    ∧ (createUser u w).2.2.ops = w3.ops + 3
    ∧ (w3.failAt (w3.ops + 1) = false → w3.failAt (w3.ops + 2) = false →
        (∀ d ∈ (createUser u w).2.2.db.addresses, d.id ∉ aids)
        ∧ (∀ d ∈ (createUser u w).2.2.db.cards, d.id ∉ cids)) := by
  set mu : MongoUser := { user := { u with cards := cs', addresses := as' }, id := w.newIds w.gens, addressIDs := aids, cardIDs := cids } with hmu
  set w4 : World := { w3 with ops := w3.ops + 1 } with hw4
  have htry : tryOp (insertUserDoc mu) w3 = (some (DbErr.writeFail w3.ops), w4) := by
    rw [hw4]
    unfold tryOp
    rw [if_pos hfail]
  have hred : createUser u w
      = ({ u with cards := cs', addresses := as' }, some (Err.db (DbErr.writeFail w3.ops)),
         (cleanAttributes mu w4).2) := by
    rw [createUser_unfold u w cids cs' ce w2 aids as' ae w3 mu hc ha hmu, htry]
  rw [hred]
  refine ⟨rfl, ?_, ?_⟩
  · show (cleanAttributes mu w4).2.ops = w3.ops + 3
    rw [cleanAttributes_ops, hw4]
  · intro hcl1 hcl2
    set w5 : World := { w4 with ops := w4.ops + 1, db := removeAddressDocs mu.addressIDs w4.db } with hw5
    have hstep1 : tryOp (removeAddressDocs mu.addressIDs) w4 = (none, w5) := by
      rw [hw5]
      unfold tryOp
      rw [if_neg (by rw [hw4]; simp [hcl1])]
    set w6 : World := { w5 with ops := w5.ops + 1, db := removeCardDocs mu.cardIDs w5.db } with hw6
    have hstep2 : tryOp (removeCardDocs mu.cardIDs) w5 = (none, w6) := by
      rw [hw6]
      unfold tryOp
      rw [if_neg (by rw [hw5, hw4]; simp [hcl2])]
    have hclean : (cleanAttributes mu w4).2 = w6 := by
      unfold cleanAttributes
      rw [hstep1]
      simp only [hstep2]
    rw [hclean]
    constructor
    · intro d hd
      have hdb : w6.db.addresses = (removeAddressDocs mu.addressIDs w4.db).addresses := by
        rw [hw6, hw5]
        rfl
      rw [hdb] at hd
      exact removeAddressDocs_not_mem _ _ d hd
    · intro d hd
      have hdb : w6.db = removeCardDocs mu.cardIDs w5.db := by rw [hw6]
      rw [hdb] at hd
      exact removeCardDocs_not_mem _ _ d hd

theorem createUser_compensation_witness :
    (createUser noNestUser (mkWorld (fun n => decide (n = 0)))).2.1
      = some (Err.db (DbErr.writeFail 0))
    ∧ (createUser noNestUser (mkWorld (fun n => decide (n = 0)))).2.2.ops = 3 := by
  have h := createUser_compensation noNestUser (mkWorld (fun n => decide (n = 0)))
    _ _ _ _ _ _ _ _ rfl rfl (by decide)
  exact ⟨h.1, h.2.1⟩

/-- C3: when the user-record upsert succeeds but a nested creation failed
earlier, `CreateUser` returns the partial-aggregate error naming both the
card-side and the address-side cause, issues no further write (no rollback),
leaves the addresses and cards collections exactly as the nested phases left
them, and the user document is persisted carrying exactly the reference ids
of the items that succeeded. -/
theorem createUser_partial_aggregate (u : User) (w : World)
    (cids : List ObjectId) (cs' : List Card) (ce : Option DbErr) (w2 : World)
    (aids : List ObjectId) (as' : List Address) (ae : Option DbErr) (w3 : World)
    (hc : createCards u.cards { w with gens := w.gens + 1 } = (cids, cs', ce, w2))
    (ha : createAddresses u.addresses w2 = (aids, as', ae, w3))
    (herr : (ce.isSome || ae.isSome) = true)
    (hok : w3.failAt w3.ops = false) :
    (createUser u w).2.1 = some (Err.partialAgg ce ae)
    ∧ (createUser u w).2.2.db.addresses = w3.db.addresses
    ∧ (createUser u w).2.2.db.cards = w3.db.cards
    ∧ (createUser u w).2.2.ops = w3.ops + 1
    ∧ bsonMarshalUser { user := { u with cards := cs', addresses := as' }, id := w.newIds w.gens, addressIDs := aids, cardIDs := cids } ∈ (createUser u w).2.2.db.customers := by
  set mu : MongoUser := { user := { u with cards := cs', addresses := as' }, id := w.newIds w.gens, addressIDs := aids, cardIDs := cids } with hmu
  set w4 : World := { w3 with ops := w3.ops + 1, db := insertUserDoc mu w3.db } with hw4
  have htry : tryOp (insertUserDoc mu) w3 = (none, w4) := by
    rw [hw4]
    unfold tryOp
    rw [if_neg (by simp [hok])]
  have hred : createUser u w
      = ({ u with cards := cs', addresses := as' }, some (Err.partialAgg ce ae), w4) := by
    rw [createUser_unfold u w cids cs' ce w2 aids as' ae w3 mu hc ha hmu, htry]
    simp [herr]
  rw [hred]
  refine ⟨rfl, ?_, ?_, ?_, ?_⟩
  · rw [hw4]; rfl
  · rw [hw4]; rfl
  · rw [hw4]
  · rw [hw4]
    show bsonMarshalUser mu ∈ (insertUserDoc mu w3.db).customers
    unfold insertUserDoc
    exact mem_upsertDoc _ _ _ _

theorem createUser_partial_aggregate_witness :
    (createUser twoCardUser (mkWorld (fun n => decide (n = 0)))).2.1
      = some (Err.partialAgg (some (DbErr.writeFail 0)) none)
    ∧ (createUser twoCardUser (mkWorld (fun n => decide (n = 0)))).2.2.ops = 2 := by
  have h := createUser_partial_aggregate twoCardUser (mkWorld (fun n => decide (n = 0)))
    _ _ _ _ _ _ _ _ rfl rfl (by decide) (by decide)
  exact ⟨h.1, h.2.2.2.1⟩

/-- C10: on the partial-failure return of `CreateUser` the caller's user
value is not overwritten with the persisted record: the returned value is
the input with only the nested slices updated in place, so its `UserID`
stays empty although a user document under the generated id was persisted;
the nested entries created before the failure carry their assigned ids. -/
theorem createUser_partial_frame (u : User) (w : World)
    (cids : List ObjectId) (cs' : List Card) (ce : Option DbErr) (w2 : World)
    (aids : List ObjectId) (as' : List Address) (ae : Option DbErr) (w3 : World)
    (huid : u.userID = "")
    (hc : createCards u.cards { w with gens := w.gens + 1 } = (cids, cs', ce, w2))
    (ha : createAddresses u.addresses w2 = (aids, as', ae, w3))
    (herr : (ce.isSome || ae.isSome) = true)
    (hok : w3.failAt w3.ops = false) :
    (createUser u w).1 = { u with cards := cs', addresses := as' }
    ∧ (createUser u w).1.userID = ""
    ∧ (∃ d ∈ (createUser u w).2.2.db.customers, d.id = w.newIds w.gens)
    ∧ (∀ j, ∀ hj : j < cids.length, ∃ hj' : j < cs'.length,
        (cs'.get ⟨j, hj'⟩).id = oidHex (cids.get ⟨j, hj⟩))
    ∧ (∀ j, ∀ hj : j < aids.length, ∃ hj' : j < as'.length,
        (as'.get ⟨j, hj'⟩).id = oidHex (aids.get ⟨j, hj⟩)) := by
  set mu : MongoUser := { user := { u with cards := cs', addresses := as' }, id := w.newIds w.gens, addressIDs := aids, cardIDs := cids } with hmu
  set w4 : World := { w3 with ops := w3.ops + 1, db := insertUserDoc mu w3.db } with hw4
  have htry : tryOp (insertUserDoc mu) w3 = (none, w4) := by
    rw [hw4]
    unfold tryOp
    rw [if_neg (by simp [hok])]
  have hred : createUser u w
      = ({ u with cards := cs', addresses := as' }, some (Err.partialAgg ce ae), w4) := by
    rw [createUser_unfold u w cids cs' ce w2 aids as' ae w3 mu hc ha hmu, htry]
    simp [herr]
  rw [hred]
  refine ⟨rfl, by simpa using huid, ?_, ?_, ?_⟩
  · refine ⟨bsonMarshalUser mu, ?_, rfl⟩
    rw [hw4]
    show bsonMarshalUser mu ∈ (insertUserDoc mu w3.db).customers
    unfold insertUserDoc
    exact mem_upsertDoc _ _ _ _
  · exact (createCards_sets_ids u.cards _ cids cs' ce w2 hc).2.2
  · exact (createAddresses_sets_ids u.addresses _ aids as' ae w3 ha).2.2

theorem createUser_partial_frame_witness :
    (createUser twoCardUser (mkWorld (fun n => decide (n = 1)))).1.userID = ""
    ∧ (createUser twoCardUser (mkWorld (fun n => decide (n = 1)))).1.cards.map Card.id
        = [oidHex (natSupply 1), ""] := by
  have h := createUser_partial_frame twoCardUser (mkWorld (fun n => decide (n = 1)))
    _ _ _ _ _ _ _ _ rfl rfl rfl (by decide) (by decide)
  refine ⟨h.2.1, by decide⟩

theorem tryUpdateCustomers_db (p : MongoUser → Bool) (f : MongoUser → MongoUser) (w : World) :
    (tryUpdateCustomers p f w).2.db.cards = w.db.cards
    ∧ (tryUpdateCustomers p f w).2.db.addresses = w.db.addresses := by
  unfold tryUpdateCustomers
  split
  · exact ⟨rfl, rfl⟩
  · split
    · exact ⟨rfl, rfl⟩
    · exact ⟨rfl, rfl⟩

/-- C6: `CreateCard` and `CreateAddress` insert the entity document first
under a fresh id and link it into the user's reference set only when the
supplied user id is non-empty (one single write for the anonymous case, the
customers collection untouched); when the insert succeeded and the link step
fails, the failure is returned and the entity document remains persisted. -/
theorem create_entity_insert_then_link :
    (∀ (ca : Card) (w : World), w.failAt w.ops = false →
      createCard ca "" w = ({ ca with id := oidHex (w.newIds w.gens) }, none, { w with ops := w.ops + 1, gens := w.gens + 1, db := insertCardDoc { card := ca, id := w.newIds w.gens } w.db })
      ∧ (createCard ca "" w).2.2.db.customers = w.db.customers
      ∧ (createCard ca "" w).2.2.ops = w.ops + 1
      ∧ bsonMarshalCard { card := ca, id := w.newIds w.gens } ∈ (createCard ca "" w).2.2.db.cards)
    ∧ (∀ (ca : Card) (userid : String) (w : World) (e : DbErr) (w3 : World),
        userid ≠ "" → isObjectIdHex userid = true → w.failAt w.ops = false →
        appendAttributeId "cards" (w.newIds w.gens) userid { w with ops := w.ops + 1, gens := w.gens + 1, db := insertCardDoc { card := ca, id := w.newIds w.gens } w.db } = (some e, w3) →
        createCard ca userid w = (ca, some e, w3)
        ∧ bsonMarshalCard { card := ca, id := w.newIds w.gens } ∈ w3.db.cards)
    ∧ (∀ (a : Address) (w : World), w.failAt w.ops = false →
      createAddress a "" w = ({ a with id := oidHex (w.newIds w.gens) }, none, { w with ops := w.ops + 1, gens := w.gens + 1, db := insertAddressDoc { address := a, id := w.newIds w.gens } w.db })
      ∧ (createAddress a "" w).2.2.db.customers = w.db.customers
      ∧ (createAddress a "" w).2.2.ops = w.ops + 1
      ∧ bsonMarshalAddress { address := a, id := w.newIds w.gens } ∈ (createAddress a "" w).2.2.db.addresses)
    ∧ (∀ (a : Address) (userid : String) (w : World) (e : DbErr) (w3 : World),
        userid ≠ "" → isObjectIdHex userid = true → w.failAt w.ops = false →
        appendAttributeId "addresses" (w.newIds w.gens) userid { w with ops := w.ops + 1, gens := w.gens + 1, db := insertAddressDoc { address := a, id := w.newIds w.gens } w.db } = (some e, w3) →
        createAddress a userid w = (a, some e, w3)
        ∧ bsonMarshalAddress { address := a, id := w.newIds w.gens } ∈ w3.db.addresses) := by
  refine ⟨?_, ?_, ?_, ?_⟩
  · intro ca w hok
    set mc : MongoCard := { card := ca, id := w.newIds w.gens } with hmc
    set w2 : World := { w with ops := w.ops + 1, gens := w.gens + 1, db := insertCardDoc mc w.db } with hw2
    have htry : tryOp (insertCardDoc mc) { w with gens := w.gens + 1 } = (none, w2) := by
      rw [hw2]
      unfold tryOp
      rw [if_neg (by simp [hok])]
    have hred : createCard ca "" w = ({ ca with id := oidHex (w.newIds w.gens) }, none, w2) := by
      unfold createCard
      rw [if_neg (by simp)]
      simp only [htry]
      rw [if_pos trivial]
    refine ⟨hred, ?_, ?_, ?_⟩
    · rw [hred, hw2]
      rfl
    · rw [hred, hw2]
    · rw [hred, hw2]
      show bsonMarshalCard mc ∈ (insertCardDoc mc w.db).cards
      unfold insertCardDoc
      exact mem_upsertDoc _ _ _ _
  · intro ca userid w e w3 hne hhex hok hlink
    set mc : MongoCard := { card := ca, id := w.newIds w.gens } with hmc
    set w2 : World := { w with ops := w.ops + 1, gens := w.gens + 1, db := insertCardDoc mc w.db } with hw2
    have htry : tryOp (insertCardDoc mc) { w with gens := w.gens + 1 } = (none, w2) := by
      rw [hw2]
      unfold tryOp
      rw [if_neg (by simp [hok])]
    have hred : createCard ca userid w = (ca, some e, w3) := by
      unfold createCard
      rw [if_neg (by simp [hhex])]
      simp only [htry]
      rw [if_neg hne]
      simp only [hlink]
    refine ⟨hred, ?_⟩
    have hcards : w3.db.cards = w2.db.cards := by
      have h := (tryUpdateCustomers_db (fun mu => decide (mu.id = objectIdHexD userid)) (addToSet "cards" (w.newIds w.gens)) w2).1
      unfold appendAttributeId at hlink
      rw [hlink] at h
      exact h
    rw [hcards, hw2]
    show bsonMarshalCard mc ∈ (insertCardDoc mc w.db).cards
    unfold insertCardDoc
    exact mem_upsertDoc _ _ _ _
  · intro a w hok
    set ma : MongoAddress := { address := a, id := w.newIds w.gens } with hma
    set w2 : World := { w with ops := w.ops + 1, gens := w.gens + 1, db := insertAddressDoc ma w.db } with hw2
    have htry : tryOp (insertAddressDoc ma) { w with gens := w.gens + 1 } = (none, w2) := by
      rw [hw2]
      unfold tryOp
      rw [if_neg (by simp [hok])]
    have hred : createAddress a "" w = ({ a with id := oidHex (w.newIds w.gens) }, none, w2) := by
      unfold createAddress
      rw [if_neg (by simp)]
      simp only [htry]
      rw [if_pos trivial]
    refine ⟨hred, ?_, ?_, ?_⟩
    · rw [hred, hw2]
      rfl
    · rw [hred, hw2]
    · rw [hred, hw2]
      show bsonMarshalAddress ma ∈ (insertAddressDoc ma w.db).addresses
      unfold insertAddressDoc
      exact mem_upsertDoc _ _ _ _
  · intro a userid w e w3 hne hhex hok hlink
    set ma : MongoAddress := { address := a, id := w.newIds w.gens } with hma
    set w2 : World := { w with ops := w.ops + 1, gens := w.gens + 1, db := insertAddressDoc ma w.db } with hw2
    have htry : tryOp (insertAddressDoc ma) { w with gens := w.gens + 1 } = (none, w2) := by
      rw [hw2]
      unfold tryOp
      rw [if_neg (by simp [hok])]
    have hred : createAddress a userid w = (a, some e, w3) := by
      unfold createAddress
      rw [if_neg (by simp [hhex])]
      simp only [htry]
      rw [if_neg hne]
      simp only [hlink]
    refine ⟨hred, ?_⟩
    have haddrs : w3.db.addresses = w2.db.addresses := by
      have h := (tryUpdateCustomers_db (fun mu => decide (mu.id = objectIdHexD userid)) (addToSet "addresses" (w.newIds w.gens)) w2).2
      unfold appendAttributeId at hlink
      rw [hlink] at h
      exact h
    rw [haddrs, hw2]
    show bsonMarshalAddress ma ∈ (insertAddressDoc ma w.db).addresses
    unfold insertAddressDoc
    exact mem_upsertDoc _ _ _ _

theorem genIdsFrom_length (f : Nat → ObjectId) : ∀ (g n : Nat), (genIdsFrom f g n).length = n
  | _, 0 => rfl
  | g, n + 1 => by simp [genIdsFrom, genIdsFrom_length f (g + 1) n]

/-- C1 counterexample: input: `twoCardUser` in a world whose write 0 (the
first card's upsert) fails while every later write succeeds. `CreateUser`
issues only two writes in total (ops = 2: card 1 and the user record), the
cards collection stays empty — the second card, whose write would have
succeeded (`failAt 1 = false`), is never attempted — and only the card error
is collected. This refutes the claim that a failure on one nested item does
not prevent the attempt on the remaining items of either kind. -/
theorem createUser_abort_within_kind_cx :
    (createUser twoCardUser (mkWorld (fun n => decide (n = 0)))).2.2.db.cards = []
    ∧ (createUser twoCardUser (mkWorld (fun n => decide (n = 0)))).2.2.ops = 2
    ∧ (createUser twoCardUser (mkWorld (fun n => decide (n = 0)))).2.1
        = some (Err.partialAgg (some (DbErr.writeFail 0)) none)
    ∧ (createUser twoCardUser (mkWorld (fun n => decide (n = 0)))).1.cards.map Card.id = ["", ""]
    ∧ (mkWorld (fun n => decide (n = 0))).failAt 1 = false := by
  decide

/-- C1 (amended): each nested Card and Address is created with its own
generated identifier via Upsert and failures are collected, not aborted on,
at the `CreateUser` level; a failure while creating one nested item aborts
the remaining items of the **same** kind (they are not attempted and stay
untouched), but does not prevent the creation of the other kind's items nor
the user-record upsert: after a card-side failure the addresses are still
all created and the persisted user record carries the collected ids of the
items that succeeded. -/
theorem createUser_nested_create_collect :
    (∀ (cs : List Card) (w : World) (k : Nat), k < cs.length →
      (∀ j, j < k → w.failAt (w.ops + j) = false) →
      w.failAt (w.ops + k) = true →
      ∃ ids cs₁ w', createCards cs w = (ids, cs₁, some (DbErr.writeFail (w.ops + k)), w')
        ∧ ids.length = k ∧ cs₁.drop k = cs.drop k ∧ w'.ops = w.ops + k + 1)
    ∧ (∀ (as : List Address) (w : World) (k : Nat), k < as.length →
      (∀ j, j < k → w.failAt (w.ops + j) = false) →
      w.failAt (w.ops + k) = true →
      ∃ ids as₁ w', createAddresses as w = (ids, as₁, some (DbErr.writeFail (w.ops + k)), w')
        ∧ ids.length = k ∧ as₁.drop k = as.drop k ∧ w'.ops = w.ops + k + 1)
    ∧ (∀ (u : User) (w : World) (cids : List ObjectId) (cs' : List Card) (e : DbErr) (w2 : World),
      createCards u.cards { w with gens := w.gens + 1 } = (cids, cs', some e, w2) →
      (∀ j, j < u.addresses.length + 1 → w2.failAt (w2.ops + j) = false) →
      (createUser u w).2.1 = some (Err.partialAgg (some e) none)
      ∧ ((∀ i j, w2.newIds i = w2.newIds j → i = j) →
          ∀ j, ∀ hj : j < u.addresses.length,
            ({ address := { u.addresses.get ⟨j, hj⟩ with id := "" }, id := w2.newIds (w2.gens + j) } : MongoAddress)
              ∈ (createUser u w).2.2.db.addresses)
      ∧ (∃ d ∈ (createUser u w).2.2.db.customers, d.id = w.newIds w.gens
          ∧ d.cardIDs = cids ∧ d.addressIDs = genIdsFrom w2.newIds w2.gens u.addresses.length)) := by
  refine ⟨?_, ?_, ?_⟩
  · intro cs w k hk hsafe hfk
    obtain ⟨w', heq, hops, -, -, -, -, -⟩ := createCards_fail cs w k hk hsafe hfk
    refine ⟨genIdsFrom w.newIds w.gens k, _, w', heq, genIdsFrom_length _ _ _, ?_, hops⟩
    have hzlen : (List.zipWith (fun c i => { c with id := oidHex i }) (cs.take k)
        (genIdsFrom w.newIds w.gens k)).length = k := by
      rw [List.length_zipWith, List.length_take, genIdsFrom_length]
      omega
    rw [List.drop_left' hzlen]
  · intro as w k hk hsafe hfk
    obtain ⟨w', heq, hops, -, -, -, -, -⟩ := createAddresses_fail as w k hk hsafe hfk
    refine ⟨genIdsFrom w.newIds w.gens k, _, w', heq, genIdsFrom_length _ _ _, ?_, hops⟩
    have hzlen : (List.zipWith (fun a i => { a with id := oidHex i }) (as.take k)
        (genIdsFrom w.newIds w.gens k)).length = k := by
      rw [List.length_zipWith, List.length_take, genIdsFrom_length]
      omega
    rw [List.drop_left' hzlen]
  · intro u w cids cs' e w2 hc hsafe
    have hsafeA : ∀ j, j < u.addresses.length → w2.failAt (w2.ops + j) = false :=
      fun j hj => hsafe j (by omega)
    obtain ⟨w3, ha, hops, hgens, hfa, hni, hcust, hcards, hmem, hpres⟩ :=
      createAddresses_ok u.addresses w2 hsafeA
    set aids : List ObjectId := genIdsFrom w2.newIds w2.gens u.addresses.length with haids
    set as' : List Address :=
      List.zipWith (fun a i => { a with id := oidHex i }) u.addresses aids with has'
    set mu : MongoUser := { user := { u with cards := cs', addresses := as' }, id := w.newIds w.gens, addressIDs := aids, cardIDs := cids } with hmu
    have hupsert_ok : w3.failAt w3.ops = false := by
      rw [hfa, hops]
      exact hsafe u.addresses.length (by omega)
    set w4 : World := { w3 with ops := w3.ops + 1, db := insertUserDoc mu w3.db } with hw4
    have htry : tryOp (insertUserDoc mu) w3 = (none, w4) := by
      rw [hw4]
      unfold tryOp
      rw [if_neg (by simp [hupsert_ok])]
    have hred : createUser u w
        = ({ u with cards := cs', addresses := as' }, some (Err.partialAgg (some e) none), w4) := by
      rw [createUser_unfold u w cids cs' (some e) w2 aids as' none w3 mu hc ha hmu, htry]
      simp
    rw [hred]
    refine ⟨rfl, ?_, ?_⟩
    · intro hinj j hj
      have h := hmem hinj j hj
      have hw4a : w4.db.addresses = w3.db.addresses := by
        rw [hw4]
        rfl
      show _ ∈ w4.db.addresses
      rw [hw4a]
      exact h
    · refine ⟨bsonMarshalUser mu, ?_, rfl, rfl, rfl⟩
      show bsonMarshalUser mu ∈ w4.db.customers
      rw [hw4]
      show bsonMarshalUser mu ∈ (insertUserDoc mu w3.db).customers
      unfold insertUserDoc
      exact mem_upsertDoc _ _ _ _

theorem createUser_nested_create_collect_witness :
    (∃ ids cs₁ w',
      createCards twoCardUser.cards (mkWorld (fun n => decide (n = 0)))
        = (ids, cs₁, some (DbErr.writeFail 0), w')
      ∧ ids.length = 0 ∧ cs₁.drop 0 = twoCardUser.cards.drop 0 ∧ w'.ops = 1)
    ∧ (createUser mixedUser (mkWorld (fun n => decide (n = 0)))).2.1
        = some (Err.partialAgg (some (DbErr.writeFail 0)) none) := by
  constructor
  · exact createUser_nested_create_collect.1 twoCardUser.cards
      (mkWorld (fun n => decide (n = 0))) 0 (by decide) (fun j hj => absurd hj (by omega)) (by decide)
  · exact (createUser_nested_create_collect.2.2 mixedUser (mkWorld (fun n => decide (n = 0)))
      _ _ _ _ rfl (by decide)).1

theorem create_entity_insert_then_link_witness :
    (createCard { longNum := "4", id := "" } "" (mkWorld (fun _ => false))).2.1 = none
    ∧ (createCard { longNum := "4", id := "" } (oidHex (fixOid 1)) (mkWorld (fun _ => false))).2.1
        = some DbErr.notFound
    ∧ (createCard { longNum := "4", id := "" } (oidHex (fixOid 1)) (mkWorld (fun _ => false))).2.2.db.cards.length = 1 := by
  have h1 := create_entity_insert_then_link.1 { longNum := "4", id := "" }
    (mkWorld (fun _ => false)) rfl
  have h2 := create_entity_insert_then_link.2.1 { longNum := "4", id := "" }
    (oidHex (fixOid 1)) (mkWorld (fun _ => false)) DbErr.notFound _
    (by decide) (by decide) rfl rfl
  refine ⟨by rw [h1.1], by rw [h2.1], by rw [h2.1]; rfl⟩

theorem tryOp_removeA_customers (ids : List ObjectId) (w : World) :
    (tryOp (removeAddressDocs ids) w).2.db.customers = w.db.customers := by
  unfold tryOp
  split <;> rfl

theorem tryOp_removeC_customers (ids : List ObjectId) (w : World) :
    (tryOp (removeCardDocs ids) w).2.db.customers = w.db.customers := by
  unfold tryOp
  split <;> rfl

theorem collContains_customers (oid : ObjectId) (db : DB) :
    collContains "customers" oid db = db.customers.any (fun d => decide (d.id = oid)) := by
  unfold collContains
  rw [if_pos rfl]

theorem collRemoveFirst_customers (oid : ObjectId) (db : DB) :
    collRemoveFirst "customers" oid db
      = { db with customers := db.customers.eraseP (fun d => decide (d.id = oid)) } := by
  unfold collRemoveFirst
  rw [if_pos rfl]

theorem addUserIDs_addresses_of_stored (mu : MongoUser) (h : storedUserOk mu) :
    (addUserIDs mu).user.addresses.map (fun a => objectIdHexD a.id) = mu.addressIDs := by
  unfold addUserIDs
  rw [h.1]
  simp only [List.nil_append, List.map_map]
  have hcongr : ∀ i ∈ mu.addressIDs,
      ((fun a => objectIdHexD a.id) ∘ fun i => ({ street := "", id := oidHex i } : Address)) i = i := by
    intro i hi
    exact objectIdHexD_oidHex i (h.2.2.2.1 i hi)
  rw [List.map_congr_left hcongr]
  simp

theorem addUserIDs_cards_of_stored (mu : MongoUser) (h : storedUserOk mu) :
    (addUserIDs mu).user.cards.map (fun c => objectIdHexD c.id) = mu.cardIDs := by
  unfold addUserIDs
  rw [h.2.1]
  simp only [List.nil_append, List.map_map]
  have hcongr : ∀ i ∈ mu.cardIDs,
      ((fun c => objectIdHexD c.id) ∘ fun i => ({ longNum := "", id := oidHex i } : Card)) i = i := by
    intro i hi
    exact objectIdHexD_oidHex i (h.2.2.2.2 i hi)
  rw [List.map_congr_left hcongr]
  simp

/-- C4: `Delete` on the `customers` collection with a well-formed id loads
the user, bulk-removes every referenced address and card document without
propagating those bulk-removal errors (the delete reports success whenever
the final user-document removal succeeds), and removes the user document;
when the bulk removals do succeed, a subsequent `GetUser` on the id reports
`ErrNotFound` and no document referenced at delete time remains. -/
theorem delete_root_cascade (w : World) (s : String) (mu : MongoUser)
    (hwf : DBwf w.db)
    (hhex : isObjectIdHex s = true)
    (hfind : w.db.customers.find? (fun m => decide (m.id = objectIdHexD s)) = some mu) :
    (w.failAt (w.ops + 2) = false → (deleteEntity "customers" s w).1 = none)
    ∧ (w.failAt w.ops = false → w.failAt (w.ops + 1) = false → w.failAt (w.ops + 2) = false →
        (getUser s (deleteEntity "customers" s w).2.db).2 = some DbErr.notFound
        ∧ (∀ aid ∈ mu.addressIDs, ∀ d ∈ (deleteEntity "customers" s w).2.db.addresses, d.id ≠ aid)
        ∧ (∀ cid ∈ mu.cardIDs, ∀ d ∈ (deleteEntity "customers" s w).2.db.cards, d.id ≠ cid)) := by
  have hmu_mem : mu ∈ w.db.customers := List.mem_of_find?_eq_some hfind
  have hstored : storedUserOk mu := hwf.2.2.2 mu hmu_mem
  have hmuid : mu.id = objectIdHexD s := by
    have := List.find?_some hfind
    simpa using this
  have hgetu : getUser s w.db = ((addUserIDs mu).user, none) := by
    unfold getUser
    rw [if_pos hhex, hfind]
  have hdel : deleteEntity "customers" s w
      = tryRemove "customers" (objectIdHexD s)
          (tryOp (removeCardDocs mu.cardIDs)
            (tryOp (removeAddressDocs mu.addressIDs) w).2).2 := by
    unfold deleteEntity
    rw [if_neg (by simp [hhex])]
    rw [if_pos rfl]
    simp only [hgetu]
    rw [addUserIDs_addresses_of_stored mu hstored, addUserIDs_cards_of_stored mu hstored]
  have hcust2 : (tryOp (removeCardDocs mu.cardIDs)
      (tryOp (removeAddressDocs mu.addressIDs) w).2).2.db.customers = w.db.customers := by
    rw [tryOp_removeC_customers, tryOp_removeA_customers]
  have hfa2 : (tryOp (removeCardDocs mu.cardIDs)
      (tryOp (removeAddressDocs mu.addressIDs) w).2).2.failAt = w.failAt := by
    rw [tryOp_failAt, tryOp_failAt]
  have hops2 : (tryOp (removeCardDocs mu.cardIDs)
      (tryOp (removeAddressDocs mu.addressIDs) w).2).2.ops = w.ops + 2 := by
    rw [tryOp_ops, tryOp_ops]
  have hcontains : collContains "customers" (objectIdHexD s)
      (tryOp (removeCardDocs mu.cardIDs)
        (tryOp (removeAddressDocs mu.addressIDs) w).2).2.db = true := by
    rw [collContains_customers, hcust2, List.any_eq_true]
    exact ⟨mu, hmu_mem, by simp [hmuid]⟩
  constructor
  · intro h2
    rw [hdel]
    unfold tryRemove
    rw [if_neg (by rw [hfa2, hops2, h2]; simp)]
    rw [if_pos hcontains]
  · intro h0 h1 h2
    have hs1 : tryOp (removeAddressDocs mu.addressIDs) w
        = (none, { w with ops := w.ops + 1, db := removeAddressDocs mu.addressIDs w.db }) := by
      unfold tryOp
      rw [if_neg (by simp [h0])]
    have hs2 : tryOp (removeCardDocs mu.cardIDs)
        ({ w with ops := w.ops + 1, db := removeAddressDocs mu.addressIDs w.db } : World)
        = (none, { w with ops := w.ops + 2, db := removeCardDocs mu.cardIDs (removeAddressDocs mu.addressIDs w.db) }) := by
      unfold tryOp
      rw [if_neg (by simp [h1])]
    have hs3 : tryRemove "customers" (objectIdHexD s)
        ({ w with ops := w.ops + 2, db := removeCardDocs mu.cardIDs (removeAddressDocs mu.addressIDs w.db) } : World)
        = (none, { w with ops := w.ops + 3, db := collRemoveFirst "customers" (objectIdHexD s) (removeCardDocs mu.cardIDs (removeAddressDocs mu.addressIDs w.db)) }) := by
      unfold tryRemove
      rw [if_neg (by simp [h2])]
      rw [if_pos (by rw [collContains_customers, List.any_eq_true]; exact ⟨mu, hmu_mem, by simp [hmuid]⟩)]
    have hdel2 : deleteEntity "customers" s w
        = (none, { w with ops := w.ops + 3, db := collRemoveFirst "customers" (objectIdHexD s) (removeCardDocs mu.cardIDs (removeAddressDocs mu.addressIDs w.db)) }) := by
      rw [hdel, hs1]
      rw [show ((none : Option DbErr), ({ w with ops := w.ops + 1, db := removeAddressDocs mu.addressIDs w.db } : World)).2 = ({ w with ops := w.ops + 1, db := removeAddressDocs mu.addressIDs w.db } : World) from rfl]
      rw [hs2]
      rw [show ((none : Option DbErr), ({ w with ops := w.ops + 2, db := removeCardDocs mu.cardIDs (removeAddressDocs mu.addressIDs w.db) } : World)).2 = ({ w with ops := w.ops + 2, db := removeCardDocs mu.cardIDs (removeAddressDocs mu.addressIDs w.db) } : World) from rfl]
      rw [hs3]
    rw [hdel2]
    have hcust_f : (collRemoveFirst "customers" (objectIdHexD s) (removeCardDocs mu.cardIDs (removeAddressDocs mu.addressIDs w.db))).customers
        = w.db.customers.eraseP (fun d => decide (d.id = objectIdHexD s)) := by
      rw [collRemoveFirst_customers]
      rfl
    have haddr_f : (collRemoveFirst "customers" (objectIdHexD s) (removeCardDocs mu.cardIDs (removeAddressDocs mu.addressIDs w.db))).addresses
        = (removeAddressDocs mu.addressIDs w.db).addresses := by
      rw [collRemoveFirst_customers]
      rfl
    have hcard_f : (collRemoveFirst "customers" (objectIdHexD s) (removeCardDocs mu.cardIDs (removeAddressDocs mu.addressIDs w.db))).cards
        = (removeCardDocs mu.cardIDs (removeAddressDocs mu.addressIDs w.db)).cards := by
      rw [collRemoveFirst_customers]
    have hnone : (w.db.customers.eraseP (fun d => decide (d.id = objectIdHexD s))).find?
        (fun m => decide (m.id = objectIdHexD s)) = none := by
      apply find?_eq_none_of_not_key MongoUser.id
      exact eraseP_key_gone MongoUser.id (objectIdHexD s) w.db.customers hwf.1
    refine ⟨?_, ?_, ?_⟩
    · show (getUser s (collRemoveFirst "customers" (objectIdHexD s) (removeCardDocs mu.cardIDs (removeAddressDocs mu.addressIDs w.db)))).2 = some DbErr.notFound
      unfold getUser
      rw [if_pos hhex, hcust_f, hnone]
    · intro aid haid d hd hdid
      have hd2 : d ∈ (collRemoveFirst "customers" (objectIdHexD s) (removeCardDocs mu.cardIDs (removeAddressDocs mu.addressIDs w.db))).addresses := hd
      rw [haddr_f] at hd2
      exact removeAddressDocs_not_mem mu.addressIDs w.db d hd2 (hdid ▸ haid)
    · intro cid hcid d hd hdid
      have hd2 : d ∈ (collRemoveFirst "customers" (objectIdHexD s) (removeCardDocs mu.cardIDs (removeAddressDocs mu.addressIDs w.db))).cards := hd
      rw [hcard_f] at hd2
      exact removeCardDocs_not_mem mu.cardIDs _ d hd2 (hdid ▸ hcid)

theorem collContains_addresses (oid : ObjectId) (db : DB) :
    collContains "addresses" oid db = db.addresses.any (fun d => decide (d.id = oid)) := by
  unfold collContains
  rw [if_neg (by decide), if_pos rfl]

theorem collRemoveFirst_addresses (oid : ObjectId) (db : DB) :
    collRemoveFirst "addresses" oid db
      = { db with addresses := db.addresses.eraseP (fun d => decide (d.id = oid)) } := by
  unfold collRemoveFirst
  rw [if_neg (by decide), if_pos rfl]

theorem pullAttr_addresses (oid : ObjectId) (mu : MongoUser) :
    pullAttr "addresses" oid mu
      = { mu with addressIDs := mu.addressIDs.filter (fun i => ! decide (i = oid)) } := by
  unfold pullAttr
  rw [if_pos rfl]

theorem find?_map_keyed (f : MongoUser → MongoUser) (hid : ∀ mu, (f mu).id = mu.id)
    (k : ObjectId) :
    ∀ l : List MongoUser, (l.map f).find? (fun m => decide (m.id = k))
      = (l.find? (fun m => decide (m.id = k))).map f
  | [] => rfl
  | mu :: rest => by
      by_cases h : mu.id = k
      · have h1 : (decide ((f mu).id = k)) = true := by rw [hid, h]; simp
        have h2 : (decide (mu.id = k)) = true := by rw [h]; simp
        simp [List.find?_cons, h1, h2]
      · have h1 : (decide ((f mu).id = k)) = false := by rw [hid]; simp [h]
        have h2 : (decide (mu.id = k)) = false := by simp [h]
        simp [List.find?_cons, h1, h2, find?_map_keyed f hid k rest]

theorem addUserIDs_addresses_refs (mu : MongoUser) (h : storedUserOk mu) :
    ((addUserIDs mu).user.addresses.map (fun a => a.id)).map objectIdHexD = mu.addressIDs := by
  rw [List.map_map]
  have hc : ∀ a ∈ (addUserIDs mu).user.addresses,
      (objectIdHexD ∘ fun a => a.id) a = (fun a => objectIdHexD a.id) a := fun a _ => rfl
  rw [List.map_congr_left hc]
  exact addUserIDs_addresses_of_stored mu h

theorem addUserIDs_cards_refs (mu : MongoUser) (h : storedUserOk mu) :
    ((addUserIDs mu).user.cards.map (fun c => c.id)).map objectIdHexD = mu.cardIDs := by
  rw [List.map_map]
  have hc : ∀ c ∈ (addUserIDs mu).user.cards,
      (objectIdHexD ∘ fun c => c.id) c = (fun c => objectIdHexD c.id) c := fun c _ => rfl
  rw [List.map_congr_left hc]
  exact addUserIDs_cards_of_stored mu h

theorem addUserIDs_addresses_hex (mu : MongoUser) (h : storedUserOk mu) :
    ∀ s ∈ (addUserIDs mu).user.addresses.map (fun a => a.id), isObjectIdHex s = true := by
  intro s hs
  rw [List.mem_map] at hs
  obtain ⟨a, ha, rfl⟩ := hs
  unfold addUserIDs at ha
  rw [h.1] at ha
  simp only [List.nil_append, List.mem_map] at ha
  obtain ⟨i, hi, rfl⟩ := ha
  exact isObjectIdHex_oidHex i (h.2.2.2.1 i hi)

theorem addUserIDs_cards_hex (mu : MongoUser) (h : storedUserOk mu) :
    ∀ s ∈ (addUserIDs mu).user.cards.map (fun c => c.id), isObjectIdHex s = true := by
  intro s hs
  rw [List.mem_map] at hs
  obtain ⟨c, hc, rfl⟩ := hs
  unfold addUserIDs at hc
  rw [h.2.1] at hc
  simp only [List.nil_append, List.mem_map] at hc
  obtain ⟨i, hi, rfl⟩ := hc
  exact isObjectIdHex_oidHex i (h.2.2.2.2 i hi)

theorem collContains_cards (oid : ObjectId) (db : DB) :
    collContains "cards" oid db = db.cards.any (fun d => decide (d.id = oid)) := by
  unfold collContains
  rw [if_neg (by decide), if_neg (by decide), if_pos rfl]

theorem collRemoveFirst_cards (oid : ObjectId) (db : DB) :
    collRemoveFirst "cards" oid db
      = { db with cards := db.cards.eraseP (fun d => decide (d.id = oid)) } := by
  unfold collRemoveFirst
  rw [if_neg (by decide), if_neg (by decide), if_pos rfl]

theorem pullAttr_cards (oid : ObjectId) (mu : MongoUser) :
    pullAttr "cards" oid mu
      = { mu with cardIDs := mu.cardIDs.filter (fun i => ! decide (i = oid)) } := by
  unfold pullAttr
  rw [if_neg (by decide), if_pos rfl]

/-- C5: `Delete` on a nested collection — an address or a card — with a
well-formed id pulls the id from that reference set of **every** user
document, then removes the entity document itself; afterwards a
`GetUserAttributes` on the re-fetched owning user returns no error and its
hydrated attributes no longer include the deleted entity. -/
theorem delete_nested_cleans_references :
    (∀ (w : World) (oid : ObjectId) (mu : MongoUser),
      DBwf w.db → validOid oid →
      w.db.customers.find? (fun m => decide (m.id = mu.id)) = some mu →
      oid ∈ mu.addressIDs →
      collContains "addresses" oid w.db = true →
      w.failAt w.ops = false → w.failAt (w.ops + 1) = false →
      (deleteEntity "addresses" (oidHex oid) w).1 = none
      ∧ (deleteEntity "addresses" (oidHex oid) w).2.db.customers
          = w.db.customers.map (pullAttr "addresses" oid)
      ∧ (∀ d ∈ (deleteEntity "addresses" (oidHex oid) w).2.db.addresses, d.id ≠ oid)
      ∧ (getUserAttributes (getUser (oidHex mu.id) (deleteEntity "addresses" (oidHex oid) w).2.db).1
          (deleteEntity "addresses" (oidHex oid) w).2.db).2 = none
      ∧ (∀ x ∈ (getUserAttributes (getUser (oidHex mu.id) (deleteEntity "addresses" (oidHex oid) w).2.db).1
          (deleteEntity "addresses" (oidHex oid) w).2.db).1.addresses, x.id ≠ oidHex oid))
    ∧ (∀ (w : World) (oid : ObjectId) (mu : MongoUser),
      DBwf w.db → validOid oid →
      w.db.customers.find? (fun m => decide (m.id = mu.id)) = some mu →
      oid ∈ mu.cardIDs →
      collContains "cards" oid w.db = true →
      w.failAt w.ops = false → w.failAt (w.ops + 1) = false →
      (deleteEntity "cards" (oidHex oid) w).1 = none
      ∧ (deleteEntity "cards" (oidHex oid) w).2.db.customers
          = w.db.customers.map (pullAttr "cards" oid)
      ∧ (∀ d ∈ (deleteEntity "cards" (oidHex oid) w).2.db.cards, d.id ≠ oid)
      ∧ (getUserAttributes (getUser (oidHex mu.id) (deleteEntity "cards" (oidHex oid) w).2.db).1
          (deleteEntity "cards" (oidHex oid) w).2.db).2 = none
      ∧ (∀ x ∈ (getUserAttributes (getUser (oidHex mu.id) (deleteEntity "cards" (oidHex oid) w).2.db).1
          (deleteEntity "cards" (oidHex oid) w).2.db).1.cards, x.id ≠ oidHex oid)) := by
  constructor
  · intro w oid mu hwf hvalid hfind _href hdoc h0 h1
    have hmu_mem : mu ∈ w.db.customers := List.mem_of_find?_eq_some hfind
    have hstored : storedUserOk mu := hwf.2.2.2 mu hmu_mem
    have hhex : isObjectIdHex (oidHex oid) = true := isObjectIdHex_oidHex oid hvalid
    have hdec : objectIdHexD (oidHex oid) = oid := objectIdHexD_oidHex oid hvalid
    set dbf : DB := collRemoveFirst "addresses" oid (pullAttrAll "addresses" oid w.db) with hdbf
    have hs1 : tryOp (pullAttrAll "addresses" oid) w
        = (none, { w with ops := w.ops + 1, db := pullAttrAll "addresses" oid w.db }) := by
      unfold tryOp
      rw [if_neg (by simp [h0])]
    have hcont : collContains "addresses" oid (pullAttrAll "addresses" oid w.db) = true := by
      rw [collContains_addresses]
      rw [show (pullAttrAll "addresses" oid w.db).addresses = w.db.addresses from rfl]
      rw [collContains_addresses] at hdoc
      exact hdoc
    have hs2 : tryRemove "addresses" oid ({ w with ops := w.ops + 1, db := pullAttrAll "addresses" oid w.db } : World)
        = (none, { w with ops := w.ops + 2, db := dbf }) := by
      unfold tryRemove
      rw [if_neg (by simp [h1])]
      rw [if_pos hcont]
    have hdel : deleteEntity "addresses" (oidHex oid) w = (none, { w with ops := w.ops + 2, db := dbf }) := by
      unfold deleteEntity
      rw [if_neg (by simp [hhex])]
      rw [if_neg (by decide)]
      rw [hdec]
      rw [hs1]
      simp only [hs2]
    rw [hdel]
    have hdbf_cust : dbf.customers = w.db.customers.map (pullAttr "addresses" oid) := by
      rw [hdbf, collRemoveFirst_addresses]
      rfl
    have hdbf_addr : dbf.addresses = (pullAttrAll "addresses" oid w.db).addresses.eraseP (fun d => decide (d.id = oid)) := by
      rw [hdbf, collRemoveFirst_addresses]
    have haddr_gone : ∀ d ∈ dbf.addresses, d.id ≠ oid := by
      intro d hd
      rw [hdbf_addr] at hd
      exact eraseP_key_gone MongoAddress.id oid _ (by exact hwf.2.1) d hd
    set pmu : MongoUser := pullAttr "addresses" oid mu with hpmu
    have hpmu_id : pmu.id = mu.id := pullAttr_id _ _ _
    have hpmu_user : pmu.user = mu.user := pullAttr_user _ _ _
    have hpmu_aids : pmu.addressIDs = mu.addressIDs.filter (fun i => ! decide (i = oid)) := by
      rw [hpmu, pullAttr_addresses]
    have hpmu_cids : pmu.cardIDs = mu.cardIDs := by
      rw [hpmu, pullAttr_addresses]
    have hstored2 : storedUserOk pmu := by
      refine ⟨by rw [hpmu_user]; exact hstored.1, by rw [hpmu_user]; exact hstored.2.1,
        by rw [hpmu_id]; exact hstored.2.2.1, ?_, ?_⟩
      · intro a ha
        rw [hpmu_aids] at ha
        exact hstored.2.2.2.1 a (List.mem_of_mem_filter ha)
      · intro c hc
        rw [hpmu_cids] at hc
        exact hstored.2.2.2.2 c hc
    have hhexmu : isObjectIdHex (oidHex mu.id) = true := isObjectIdHex_oidHex mu.id hstored.2.2.1
    have hdecmu : objectIdHexD (oidHex mu.id) = mu.id := objectIdHexD_oidHex mu.id hstored.2.2.1
    have hfind2 : dbf.customers.find? (fun m => decide (m.id = objectIdHexD (oidHex mu.id))) = some pmu := by
      rw [hdecmu, hdbf_cust, find?_map_keyed (pullAttr "addresses" oid) (pullAttr_id _ _) mu.id, hfind]
      rfl
    have hgetu : getUser (oidHex mu.id) dbf = ((addUserIDs pmu).user, none) := by
      unfold getUser
      rw [if_pos hhexmu, hfind2]
    rw [hgetu]
    have hgua : getUserAttributes (addUserIDs pmu).user dbf
        = ({ (addUserIDs pmu).user with
              addresses := (findAddressDocs pmu.addressIDs dbf).map (fun d => { d.address with id := oidHex d.id }),
              cards := (findCardDocs pmu.cardIDs dbf).map (fun d => { d.card with id := oidHex d.id }) },
           none) := by
      unfold getUserAttributes
      rw [collectIds_ok _ (addUserIDs_addresses_hex pmu hstored2), addUserIDs_addresses_refs pmu hstored2]
      simp only [collectIds_ok _ (addUserIDs_cards_hex pmu hstored2), addUserIDs_cards_refs pmu hstored2]
    refine ⟨rfl, hdbf_cust, haddr_gone, ?_, ?_⟩
    · show (getUserAttributes (addUserIDs pmu).user dbf).2 = none
      rw [hgua]
    · show ∀ x ∈ (getUserAttributes (addUserIDs pmu).user dbf).1.addresses, x.id ≠ oidHex oid
      rw [hgua]
      intro x hx
      simp only [List.mem_map] at hx
      obtain ⟨d, hd, rfl⟩ := hx
      have hd2 := (mem_findAddressDocs _ _ _).mp hd
      have hdid : d.id ∈ pmu.addressIDs := hd2.2
      rw [hpmu_aids, List.mem_filter] at hdid
      have hdne : d.id ≠ oid := by
        have := hdid.2
        simpa using this
      have hdvalid : validOid d.id := hstored.2.2.2.1 d.id hdid.1
      show oidHex d.id ≠ oidHex oid
      intro hcontra
      apply hdne
      have := congrArg objectIdHexD hcontra
      rwa [objectIdHexD_oidHex d.id hdvalid, objectIdHexD_oidHex oid hvalid] at this
  · intro w oid mu hwf hvalid hfind _href hdoc h0 h1
    have hmu_mem : mu ∈ w.db.customers := List.mem_of_find?_eq_some hfind
    have hstored : storedUserOk mu := hwf.2.2.2 mu hmu_mem
    have hhex : isObjectIdHex (oidHex oid) = true := isObjectIdHex_oidHex oid hvalid
    have hdec : objectIdHexD (oidHex oid) = oid := objectIdHexD_oidHex oid hvalid
    set dbf : DB := collRemoveFirst "cards" oid (pullAttrAll "cards" oid w.db) with hdbf
    have hs1 : tryOp (pullAttrAll "cards" oid) w
        = (none, { w with ops := w.ops + 1, db := pullAttrAll "cards" oid w.db }) := by
      unfold tryOp
      rw [if_neg (by simp [h0])]
    have hcont : collContains "cards" oid (pullAttrAll "cards" oid w.db) = true := by
      rw [collContains_cards]
      rw [show (pullAttrAll "cards" oid w.db).cards = w.db.cards from rfl]
      rw [collContains_cards] at hdoc
      exact hdoc
    have hs2 : tryRemove "cards" oid ({ w with ops := w.ops + 1, db := pullAttrAll "cards" oid w.db } : World)
        = (none, { w with ops := w.ops + 2, db := dbf }) := by
      unfold tryRemove
      rw [if_neg (by simp [h1])]
      rw [if_pos hcont]
    have hdel : deleteEntity "cards" (oidHex oid) w = (none, { w with ops := w.ops + 2, db := dbf }) := by
      unfold deleteEntity
      rw [if_neg (by simp [hhex])]
      rw [if_neg (by decide)]
      rw [hdec]
      rw [hs1]
      simp only [hs2]
    rw [hdel]
    have hdbf_cust : dbf.customers = w.db.customers.map (pullAttr "cards" oid) := by
      rw [hdbf, collRemoveFirst_cards]
      rfl
    have hdbf_card : dbf.cards = (pullAttrAll "cards" oid w.db).cards.eraseP (fun d => decide (d.id = oid)) := by
      rw [hdbf, collRemoveFirst_cards]
    have hcard_gone : ∀ d ∈ dbf.cards, d.id ≠ oid := by
      intro d hd
      rw [hdbf_card] at hd
      exact eraseP_key_gone MongoCard.id oid _ (by exact hwf.2.2.1) d hd
    set pmu : MongoUser := pullAttr "cards" oid mu with hpmu
    have hpmu_id : pmu.id = mu.id := pullAttr_id _ _ _
    have hpmu_user : pmu.user = mu.user := pullAttr_user _ _ _
    have hpmu_aids : pmu.addressIDs = mu.addressIDs := by
      rw [hpmu, pullAttr_cards]
    have hpmu_cids : pmu.cardIDs = mu.cardIDs.filter (fun i => ! decide (i = oid)) := by
      rw [hpmu, pullAttr_cards]
    have hstored2 : storedUserOk pmu := by
      refine ⟨by rw [hpmu_user]; exact hstored.1, by rw [hpmu_user]; exact hstored.2.1,
        by rw [hpmu_id]; exact hstored.2.2.1, ?_, ?_⟩
      · intro a ha
        rw [hpmu_aids] at ha
        exact hstored.2.2.2.1 a ha
      · intro c hc
        rw [hpmu_cids] at hc
        exact hstored.2.2.2.2 c (List.mem_of_mem_filter hc)
    have hhexmu : isObjectIdHex (oidHex mu.id) = true := isObjectIdHex_oidHex mu.id hstored.2.2.1
    have hdecmu : objectIdHexD (oidHex mu.id) = mu.id := objectIdHexD_oidHex mu.id hstored.2.2.1
    have hfind2 : dbf.customers.find? (fun m => decide (m.id = objectIdHexD (oidHex mu.id))) = some pmu := by
      rw [hdecmu, hdbf_cust, find?_map_keyed (pullAttr "cards" oid) (pullAttr_id _ _) mu.id, hfind]
      rfl
    have hgetu : getUser (oidHex mu.id) dbf = ((addUserIDs pmu).user, none) := by
      unfold getUser
      rw [if_pos hhexmu, hfind2]
    rw [hgetu]
    have hgua : getUserAttributes (addUserIDs pmu).user dbf
        = ({ (addUserIDs pmu).user with
              addresses := (findAddressDocs pmu.addressIDs dbf).map (fun d => { d.address with id := oidHex d.id }),
              cards := (findCardDocs pmu.cardIDs dbf).map (fun d => { d.card with id := oidHex d.id }) },
           none) := by
      unfold getUserAttributes
      rw [collectIds_ok _ (addUserIDs_addresses_hex pmu hstored2), addUserIDs_addresses_refs pmu hstored2]
      simp only [collectIds_ok _ (addUserIDs_cards_hex pmu hstored2), addUserIDs_cards_refs pmu hstored2]
    refine ⟨rfl, hdbf_cust, hcard_gone, ?_, ?_⟩
    · show (getUserAttributes (addUserIDs pmu).user dbf).2 = none
      rw [hgua]
    · show ∀ x ∈ (getUserAttributes (addUserIDs pmu).user dbf).1.cards, x.id ≠ oidHex oid
      rw [hgua]
      intro x hx
      simp only [List.mem_map] at hx
      obtain ⟨d, hd, rfl⟩ := hx
      have hd2 := (mem_findCardDocs _ _ _).mp hd
      have hdid : d.id ∈ pmu.cardIDs := hd2.2
      rw [hpmu_cids, List.mem_filter] at hdid
      have hdne : d.id ≠ oid := by
        have := hdid.2
        simpa using this
      have hdvalid : validOid d.id := hstored.2.2.2.2 d.id hdid.1
      show oidHex d.id ≠ oidHex oid
      intro hcontra
      apply hdne
      have := congrArg objectIdHexD hcontra
      rwa [objectIdHexD_oidHex d.id hdvalid, objectIdHexD_oidHex oid hvalid] at this

theorem delete_root_cascade_witness :
    (deleteEntity "customers" (oidHex (fixOid 1)) popWorld).1 = none
    ∧ (getUser (oidHex (fixOid 1)) (deleteEntity "customers" (oidHex (fixOid 1)) popWorld).2.db).2
        = some DbErr.notFound := by
  have h := delete_root_cascade popWorld (oidHex (fixOid 1)) storedMu
    (by decide) (by decide) (by decide)
  exact ⟨h.1 rfl, (h.2 rfl rfl rfl).1⟩

theorem delete_nested_cleans_references_witness :
    (deleteEntity "addresses" (oidHex (fixOid 2)) popWorld).1 = none
    ∧ (getUserAttributes (getUser (oidHex storedMu.id) (deleteEntity "addresses" (oidHex (fixOid 2)) popWorld).2.db).1
        (deleteEntity "addresses" (oidHex (fixOid 2)) popWorld).2.db).2 = none
    ∧ (deleteEntity "cards" (oidHex (fixOid 3)) popWorld).1 = none
    ∧ (getUserAttributes (getUser (oidHex storedMu.id) (deleteEntity "cards" (oidHex (fixOid 3)) popWorld).2.db).1
        (deleteEntity "cards" (oidHex (fixOid 3)) popWorld).2.db).2 = none := by
  have ha := delete_nested_cleans_references.1 popWorld (fixOid 2) storedMu
    (by decide) (by decide) (by decide) (by decide) (by decide) rfl rfl
  have hc := delete_nested_cleans_references.2 popWorld (fixOid 3) storedMu
    (by decide) (by decide) (by decide) (by decide) (by decide) rfl rfl
  exact ⟨ha.1, ha.2.2.2.1, hc.1, hc.2.2.2.1⟩
